import Mathlib

/-!
Shallow embedding of the `terminus` terminal raycasting game (Go) in Lean 4.

Modelling conventions:
* Go `float64` values are modelled as exact rationals (`ℚ`); `math.Sqrt` is
  modelled by `Rat.sqrt`, which agrees with the real square root on perfect
  squares; `math.Inf(1)` (used only as the initial z-buffer fill, always
  overwritten for rendered columns) is modelled by the sentinel `1e30`.
* Go `int(x)` conversion from `float64` truncates toward zero, modelled by
  `goTrunc`; Go integer division also truncates toward zero, modelled by
  `Int.tdiv`.
* Go slices/maps are modelled as lists; the screen cell buffer is modelled
  as a total function from (row, column) to cells, written only through the
  bounds-checked `Screen.SetCell` / `Screen.Clear` exactly as in the source.
* The sources of randomness (`rand.Float64`, `rand.Intn`) are passed in as
  explicit arguments constrained by the ranges the Go library guarantees.
* Unbounded Go loops (the DDA wall march) become fuel-indexed recursion
  returning `Option`; termination claims are proved about the fuel bound.
-/

namespace Terminus

/-- Go `int(x)` conversion of a `float64`: truncation toward zero. -/
def goTrunc (q : ℚ) : ℤ := q.num.tdiv q.den

/-- Go `uint8(x)` conversion as used on already-clamped color channels. -/
def u8 (q : ℚ) : ℤ := goTrunc q

/-- The integer interval `[a, b)` as a list, for modelling Go `for` loops. -/
def intRange (a b : ℤ) : List ℤ := (List.range (b - a).toNat).map (fun i => a + (i : ℤ))

/-- The natural interval `[a, b)` as a list. -/
def natRange (a b : ℕ) : List ℕ := (List.range (b - a)).map (fun i => a + i)

/-! ## game/vector.go -/

/-- 2D vector of `float64` coordinates (game.Vector). -/
structure Vector where
  X : ℚ
  Y : ℚ
deriving DecidableEq, Repr

def Vector.Add (v other : Vector) : Vector := ⟨v.X + other.X, v.Y + other.Y⟩

def Vector.Sub (v other : Vector) : Vector := ⟨v.X - other.X, v.Y - other.Y⟩

def Vector.Scale (v : Vector) (s : ℚ) : Vector := ⟨v.X * s, v.Y * s⟩

def Vector.Length (v : Vector) : ℚ := Rat.sqrt (v.X * v.X + v.Y * v.Y)

def Vector.Normalize (v : Vector) : Vector :=
  let length := v.Length
  if length = 0 then ⟨0, 0⟩
  else ⟨v.X / length, v.Y / length⟩

/-! ## game/world.go -/

/-- The world grid (game.Map). -/
structure Map where
  Width : ℤ
  Height : ℤ
  Grid : List (List ℤ)
deriving Repr

/-- Cell lookup `m.Grid[y][x]` (callers guard the bounds in the source). -/
def Map.cellAt (m : Map) (x y : ℤ) : ℤ := (m.Grid.getD y.toNat []).getD x.toNat 0

def Map.IsWall (m : Map) (x y : ℤ) : Bool :=
  if x < 0 ∨ x ≥ m.Width ∨ y < 0 ∨ y ≥ m.Height then
    true
  else
    m.cellAt x y != 0

def Map.GetWallType (m : Map) (x y : ℤ) : ℤ :=
  if x < 0 ∨ x ≥ m.Width ∨ y < 0 ∨ y ≥ m.Height then
    1
  else
    m.cellAt x y

/-- The hardcoded default 20×20 maze (game.NewMap). -/
def NewMap : Map :=
  { Width := 20
    Height := 20
    Grid :=
      [[1, 1, 1, 1, 1, 1, 1, 1, 1, 1, 1, 1, 1, 1, 1, 1, 1, 1, 1, 1],
       [1, 0, 1, 0, 0, 0, 1, 0, 0, 0, 0, 0, 1, 0, 0, 0, 2, 0, 0, 1],
       [1, 0, 1, 0, 1, 0, 1, 0, 1, 1, 1, 0, 1, 0, 1, 1, 2, 1, 0, 1],
       [1, 0, 0, 0, 1, 0, 0, 0, 1, 0, 0, 0, 0, 0, 1, 0, 0, 1, 0, 1],
       [1, 1, 1, 0, 1, 1, 1, 0, 1, 0, 1, 1, 1, 1, 1, 0, 2, 1, 0, 1],
       [1, 0, 0, 0, 0, 0, 0, 0, 1, 0, 1, 0, 0, 0, 0, 0, 2, 0, 0, 1],
       [1, 0, 1, 1, 1, 1, 1, 0, 1, 0, 1, 0, 1, 1, 1, 1, 2, 1, 1, 1],
       [1, 0, 0, 0, 0, 0, 1, 0, 0, 0, 1, 0, 1, 0, 0, 0, 0, 0, 0, 1],
       [1, 1, 1, 0, 1, 0, 1, 1, 1, 0, 1, 0, 1, 0, 1, 1, 1, 1, 0, 1],
       [1, 0, 0, 0, 1, 0, 0, 0, 0, 0, 1, 0, 0, 0, 1, 0, 0, 0, 0, 1],
       [1, 0, 1, 1, 1, 1, 1, 0, 1, 1, 1, 1, 1, 0, 1, 0, 1, 1, 0, 1],
       [1, 0, 0, 0, 0, 0, 0, 0, 1, 0, 0, 0, 0, 0, 1, 0, 1, 3, 0, 1],
       [1, 1, 1, 1, 1, 0, 1, 0, 1, 0, 1, 1, 1, 0, 1, 0, 1, 3, 1, 1],
       [1, 0, 0, 0, 0, 0, 1, 0, 0, 0, 1, 0, 0, 0, 0, 0, 0, 3, 0, 1],
       [1, 0, 1, 1, 1, 1, 1, 1, 1, 0, 1, 0, 1, 1, 1, 1, 1, 3, 0, 1],
       [1, 0, 0, 0, 0, 0, 0, 0, 0, 0, 1, 0, 0, 0, 0, 0, 0, 0, 0, 1],
       [1, 1, 1, 0, 1, 1, 1, 1, 1, 1, 1, 0, 1, 0, 1, 1, 1, 0, 1, 1],
       [1, 0, 0, 0, 1, 0, 0, 0, 0, 0, 0, 0, 1, 0, 1, 4, 0, 0, 4, 1],
       [1, 0, 1, 0, 1, 0, 1, 1, 1, 1, 1, 1, 1, 0, 1, 4, 1, 1, 4, 1],
       [1, 0, 1, 0, 0, 0, 0, 0, 0, 0, 0, 0, 0, 0, 0, 4, 0, 0, 0, 1],
       [1, 1, 1, 1, 1, 1, 1, 1, 1, 1, 1, 1, 1, 1, 1, 1, 1, 1, 1, 1]] }

/-! ## game/player.go (player) -/

structure Player where
  Position : Vector
  Direction : Vector
  CameraPlane : Vector
  MoveSpeed : ℚ
  RotSpeed : ℚ
deriving DecidableEq, Repr

def NewPlayer (x y : ℚ) : Player :=
  { Position := ⟨x, y⟩
    Direction := ⟨-1, 0⟩
    CameraPlane := ⟨0, 0.66⟩
    MoveSpeed := 5.0
    RotSpeed := 3.0 }

/-! ## game/player.go (projectiles and lights) -/

inductive ProjectileType where
  | Fireball : ProjectileType
deriving DecidableEq, Repr

export ProjectileType (Fireball)

structure Projectile where
  Position : Vector
  Direction : Vector
  Speed : ℚ
  Life : ℚ
  MaxLife : ℚ
  Active : Bool
  Type' : ProjectileType
deriving DecidableEq, Repr

def NewFireball (startPos direction : Vector) : Projectile :=
  { Position := startPos
    Direction := direction.Normalize
    Speed := 8.0
    Life := 3.0
    MaxLife := 3.0
    Active := true
    Type' := Fireball }

def Projectile.Update (p : Projectile) (deltaTime : ℚ) (worldMap : Map) : Projectile :=
  if !p.Active then p
  else
    let p := { p with Life := p.Life - deltaTime }
    if p.Life ≤ 0 then { p with Active := false }
    else
      let movement := p.Direction.Scale (p.Speed * deltaTime)
      let newPos := p.Position.Add movement
      if worldMap.IsWall (goTrunc newPos.X) (goTrunc newPos.Y) then { p with Active := false }
      else { p with Position := newPos }

def Projectile.GetLightRadius (p : Projectile) : ℚ :=
  if !p.Active || p.Type' != Fireball then 0
  else
    let lifeRatio := p.Life / p.MaxLife
    2.0 + 1.5 * lifeRatio

def Projectile.GetLightIntensity (p : Projectile) : ℚ :=
  if !p.Active || p.Type' != Fireball then 0
  else
    let lifeRatio := p.Life / p.MaxLife
    0.8 * lifeRatio

structure ProjectileManager where
  Projectiles : List Projectile
deriving Repr

def NewProjectileManager : ProjectileManager := { Projectiles := [] }

def ProjectileManager.AddProjectile (pm : ProjectileManager) (p : Projectile) : ProjectileManager :=
  { pm with Projectiles := pm.Projectiles ++ [p] }

def ProjectileManager.Update (pm : ProjectileManager) (deltaTime : ℚ) (worldMap : Map) :
    ProjectileManager :=
  let updated := pm.Projectiles.map (fun p => p.Update deltaTime worldMap)
  { pm with Projectiles := updated.filter (fun p => p.Active) }

structure LightSource where
  Position : Vector
  Radius : ℚ
  Intensity : ℚ
  Color : ℚ × ℚ × ℚ
deriving DecidableEq, Repr

def LightSource.GetLightingAt (ls : LightSource) (pos : Vector) : ℚ :=
  let distance := (pos.Sub ls.Position).Length
  if distance > ls.Radius then 0
  else
    let falloff := 1.0 - distance / ls.Radius
    ls.Intensity * falloff * falloff

/-! ## game/npc.go

`NPC.Update` draws fresh randomness only in the timer-expiry branch; the
random draws are supplied as arguments: `rndDir` stands for the direction
`(cos θ, sin θ)` produced by `changeDirection` and `rndTimer` for the
`rand.Float64()` used to reset the timer. -/

structure NPC where
  Position : Vector
  Direction : Vector
  Speed : ℚ
  MovementTimer : ℚ
deriving DecidableEq, Repr

def NPC.Update (npc : NPC) (deltaTime : ℚ) (worldMap : Map) (rndDir : Vector) (rndTimer : ℚ) :
    NPC :=
  let npc := { npc with MovementTimer := npc.MovementTimer - deltaTime }
  let npc :=
    if npc.MovementTimer ≤ 0 then
      { npc with Direction := rndDir, MovementTimer := 2.0 + rndTimer * 2.0 }
    else npc
  let newPos := npc.Position.Add (npc.Direction.Scale (npc.Speed * deltaTime))
  let npc :=
    if worldMap.IsWall (goTrunc newPos.X) (goTrunc npc.Position.Y) then
      { npc with Direction := ⟨-npc.Direction.X, npc.Direction.Y⟩, MovementTimer := 0.5 }
    else
      { npc with Position := ⟨newPos.X, npc.Position.Y⟩ }
  let npc :=
    if worldMap.IsWall (goTrunc npc.Position.X) (goTrunc newPos.Y) then
      { npc with Direction := ⟨npc.Direction.X, -npc.Direction.Y⟩, MovementTimer := 0.5 }
    else
      { npc with Position := ⟨npc.Position.X, newPos.Y⟩ }
  let npc :=
    if npc.Position.X < 0.2 ∨ npc.Position.X > (worldMap.Width : ℚ) - 0.2 then
      { npc with Direction := ⟨-npc.Direction.X, npc.Direction.Y⟩ }
    else npc
  let npc :=
    if npc.Position.Y < 0.2 ∨ npc.Position.Y > (worldMap.Height : ℚ) - 0.2 then
      { npc with Direction := ⟨npc.Direction.X, -npc.Direction.Y⟩ }
    else npc
  { npc with
    Position := ⟨max 0.2 (min ((worldMap.Width : ℚ) - 0.2) npc.Position.X),
                 max 0.2 (min ((worldMap.Height : ℚ) - 0.2) npc.Position.Y)⟩ }

/-! ## server/server.go

The session registry (a Go `map[string]*PlayerSession`) is modelled as an
association list; `mapLen` and `mapInsert` model `len` and key assignment.
`AddPlayer` consumes the three random draws of `findRandomSpawnPoint`:
`rndIdx` for `rand.Intn(len(emptySpaces))` and `rnd1`, `rnd2` for the two
`rand.Float64()` jitters; `now` stands for `time.Now()`. -/

structure PlayerSession where
  ID : String
  Player : Player
  Connected : Bool
  ConnectedAt : ℕ
deriving DecidableEq, Repr

structure GameServer where
  SrvMap : Map
  ProjectileManager : ProjectileManager
  Players : List (String × PlayerSession)
  MaxPlayers : ℤ
deriving Repr

def mapLen (players : List (String × PlayerSession)) : ℤ := players.length

def mapInsert (players : List (String × PlayerSession)) (k : String) (v : PlayerSession) :
    List (String × PlayerSession) :=
  players.filter (fun kv => kv.1 ≠ k) ++ [(k, v)]

def mapLookup (players : List (String × PlayerSession)) (k : String) : Option PlayerSession :=
  (players.find? (fun kv => kv.1 = k)).map (fun kv => kv.2)

/-- The empty-cell scan of `findRandomSpawnPoint`: all `(x, y)` with
`gs.Map.Grid[y][x] == 0`, outer loop over rows `y`, inner over columns `x`. -/
def emptySpacesOf (m : Map) : List (ℤ × ℤ) :=
  (List.range m.Grid.length).foldl
    (fun acc y =>
      acc ++ (List.range (m.Grid.getD y []).length).filterMap
        (fun x => if (m.Grid.getD y []).getD x 0 = 0 then some ((x : ℤ), (y : ℤ)) else none))
    []

def findRandomSpawnPoint (m : Map) (rndIdx : ℕ) (rnd1 rnd2 : ℚ) : ℚ × ℚ :=
  let emptySpaces := emptySpacesOf m
  if emptySpaces.length = 0 then (1.5, 1.5)
  else
    let chosen := emptySpaces.getD rndIdx (0, 0)
    ((chosen.1 : ℚ) + 0.2 + rnd1 * 0.6, (chosen.2 : ℚ) + 0.2 + rnd2 * 0.6)

def AddPlayer (gs : GameServer) (sessionID : String) (rndIdx : ℕ) (rnd1 rnd2 : ℚ) (now : ℕ) :
    GameServer × Except String PlayerSession :=
  if mapLen gs.Players ≥ gs.MaxPlayers then
    (gs, Except.error "server full")
  else
    let spawn := findRandomSpawnPoint gs.SrvMap rndIdx rnd1 rnd2
    let player := NewPlayer spawn.1 spawn.2
    let session : PlayerSession :=
      { ID := sessionID, Player := player, Connected := true, ConnectedAt := now }
    ({ gs with Players := mapInsert gs.Players sessionID session }, Except.ok session)

/-! ## screen/screen.go -/

structure Color where
  R : ℤ
  G : ℤ
  B : ℤ
  A : ℤ
deriving DecidableEq, Repr

structure Cell where
  Char : Char
  FgColor : Color
  BgColor : Color
deriving DecidableEq, Repr

def defaultCell : Cell :=
  { Char := ' ', FgColor := ⟨255, 255, 255, 255⟩, BgColor := ⟨0, 0, 0, 255⟩ }

/-- The display surface; `Buffer y x` is the cell of row `y`, column `x`
(`s.Buffer[y][x]` in the source). -/
structure Screen where
  Width : ℤ
  Height : ℤ
  GameHeight : ℤ
  Buffer : ℤ → ℤ → Cell

def NewScreen (width height : ℤ) : Screen :=
  { Width := width
    Height := height
    GameHeight := height - 2
    Buffer := fun _ _ => defaultCell }

/-- The method `Screen.Clear` resets the game area only (rows `0 ≤ y < GameHeight`). -/
def Screen.Clear (s : Screen) : Screen :=
  { s with
    Buffer := fun y x =>
      if 0 ≤ y ∧ y < s.GameHeight ∧ 0 ≤ x ∧ x < s.Width then defaultCell else s.Buffer y x }

/-- The method `Screen.SetCell` writes only inside the game area. -/
def Screen.SetCell (s : Screen) (x y : ℤ) (char : Char) (fg bg : Color) : Screen :=
  if 0 ≤ x ∧ x < s.Width ∧ 0 ≤ y ∧ y < s.GameHeight then
    { s with
      Buffer := fun y' x' =>
        if y' = y ∧ x' = x then { Char := char, FgColor := fg, BgColor := bg }
        else s.Buffer y' x' }
  else s

/-! ## renderer/renderer.go -/

structure Renderer where
  screenWidth : ℤ
  screenHeight : ℤ
  zBuffer : ℤ → ℚ

def NewRenderer (width height : ℤ) : Renderer :=
  { screenWidth := width, screenHeight := height, zBuffer := fun _ => 0 }

/-- State of the per-column DDA march of `Render`. -/
structure DDA where
  mapX : ℤ
  mapY : ℤ
  sideDistX : ℚ
  sideDistY : ℚ
  stepX : ℤ
  stepY : ℤ
  deltaDistX : ℚ
  deltaDistY : ℚ
  side : ℤ
deriving DecidableEq, Repr

/-- One iteration of the `for hit == 0` DDA loop: advance the axis with the
smaller accumulated side distance, then test for a wall.  `none` means the
fuel ran out before a wall was hit. -/
def ddaLoop (worldMap : Map) (fuel : ℕ) (st : DDA) : Option DDA :=
  match fuel with
  | 0 => none
  | fuel + 1 =>
    let st' :=
      if st.sideDistX < st.sideDistY then
        { st with sideDistX := st.sideDistX + st.deltaDistX, mapX := st.mapX + st.stepX,
                  side := 0 }
      else
        { st with sideDistY := st.sideDistY + st.deltaDistY, mapY := st.mapY + st.stepY,
                  side := 1 }
    if worldMap.IsWall st'.mapX st'.mapY then some st' else ddaLoop worldMap fuel st'

/-- The DDA setup of `Render` for one ray: starting cell, step signs, and
initial side distances. -/
def ddaInit (player : Player) (rayDir : Vector) : DDA :=
  let mapX := goTrunc player.Position.X
  let mapY := goTrunc player.Position.Y
  let deltaDistX : ℚ := if rayDir.X = 0 then 1e30 else |1 / rayDir.X|
  let deltaDistY : ℚ := if rayDir.Y = 0 then 1e30 else |1 / rayDir.Y|
  let stepX : ℤ := if rayDir.X < 0 then -1 else 1
  let sideDistX : ℚ :=
    if rayDir.X < 0 then (player.Position.X - (mapX : ℚ)) * deltaDistX
    else ((mapX : ℚ) + 1.0 - player.Position.X) * deltaDistX
  let stepY : ℤ := if rayDir.Y < 0 then -1 else 1
  let sideDistY : ℚ :=
    if rayDir.Y < 0 then (player.Position.Y - (mapY : ℚ)) * deltaDistY
    else ((mapY : ℚ) + 1.0 - player.Position.Y) * deltaDistY
  ⟨mapX, mapY, sideDistX, sideDistY, stepX, stepY, deltaDistX, deltaDistY, 0⟩

def getWallColor (wallType : ℤ) (side : ℤ) (distance : ℚ) (pos : Vector)
    (lights : List LightSource) : Color :=
  let baseColor : Color :=
    if wallType = 1 then ⟨180, 32, 32, 255⟩
    else if wallType = 2 then ⟨32, 180, 32, 255⟩
    else if wallType = 3 then ⟨32, 32, 180, 255⟩
    else if wallType = 4 then ⟨180, 180, 32, 255⟩
    else if wallType = 5 then ⟨180, 32, 180, 255⟩
    else if wallType = 6 then ⟨32, 180, 180, 255⟩
    else if wallType = 7 then ⟨180, 100, 32, 255⟩
    else if wallType = 8 then ⟨100, 32, 180, 255⟩
    else ⟨120, 120, 120, 255⟩
  let sideFactor : ℚ := if side = 1 then 0.7 else 1.0
  let maxDistance : ℚ := 8.0
  let distanceFactor0 := 1.0 - distance / maxDistance
  let distanceFactor := if distanceFactor0 < 0.2 then 0.2 else distanceFactor0
  let lightFactor0 := lights.foldl (fun acc light => acc + light.GetLightingAt pos) 0.0
  let lightFactor := if lightFactor0 > 1.0 then 1.0 else lightFactor0
  let finalFactor0 := sideFactor * (distanceFactor + lightFactor * 0.8)
  let finalFactor := if finalFactor0 > 1.0 then 1.0 else finalFactor0
  ⟨u8 ((baseColor.R : ℚ) * finalFactor), u8 ((baseColor.G : ℚ) * finalFactor),
   u8 ((baseColor.B : ℚ) * finalFactor), 255⟩

def getCeilingColor (distance : ℚ) : Color :=
  let baseColor : Color := ⟨80, 100, 140, 255⟩
  let maxDistance : ℚ := 10.0
  let distanceFactor0 := 1.0 - distance / maxDistance
  let distanceFactor := if distanceFactor0 < 0.1 then 0.1 else distanceFactor0
  ⟨u8 ((baseColor.R : ℚ) * distanceFactor), u8 ((baseColor.G : ℚ) * distanceFactor),
   u8 ((baseColor.B : ℚ) * distanceFactor), 255⟩

def getFloorColor (distance : ℚ) : Color :=
  let baseColor : Color := ⟨60, 40, 20, 255⟩
  let maxDistance : ℚ := 10.0
  let distanceFactor0 := 1.0 - distance / maxDistance
  let distanceFactor := if distanceFactor0 < 0.1 then 0.1 else distanceFactor0
  ⟨u8 ((baseColor.R : ℚ) * distanceFactor), u8 ((baseColor.G : ℚ) * distanceFactor),
   u8 ((baseColor.B : ℚ) * distanceFactor), 255⟩

/-- Fuel that always suffices for the DDA march: one step puts the ray
either in a wall cell or inside the grid, after which at most
`Width + Height` further steps reach an out-of-bounds (hence wall) cell. -/
def ddaFuel (worldMap : Map) : ℕ := (worldMap.Width + worldMap.Height + 2).toNat

/-- One column `x` of the wall/ceiling/floor pass of `Render`; returns the
updated renderer (z-buffer) and screen.  A fuel-starved DDA (impossible for
the fuel above) leaves the column untouched. -/
def renderColumn (worldMap : Map) (player : Player) (lights : List LightSource) (x : ℤ)
    (r : Renderer) (screen : Screen) : Renderer × Screen :=
  let cameraX : ℚ := 2 * (x : ℚ) / (r.screenWidth : ℚ) - 1
  let rayDir := player.Direction.Add (player.CameraPlane.Scale cameraX)
  match ddaLoop worldMap (ddaFuel worldMap) (ddaInit player rayDir) with
  | none => (r, screen)
  | some st =>
    let gameHeight := screen.GameHeight
    let perpWallDist : ℚ :=
      if st.side = 0 then
        ((st.mapX : ℚ) - player.Position.X + (1 - (st.stepX : ℚ)) / 2) / rayDir.X
      else
        ((st.mapY : ℚ) - player.Position.Y + (1 - (st.stepY : ℚ)) / 2) / rayDir.Y
    let lineHeight := goTrunc ((gameHeight : ℚ) / perpWallDist)
    let drawStart0 := (-lineHeight).tdiv 2 + gameHeight.tdiv 2
    let drawStart := if drawStart0 < 0 then 0 else drawStart0
    let drawEnd0 := lineHeight.tdiv 2 + gameHeight.tdiv 2
    let drawEnd := if drawEnd0 ≥ gameHeight then gameHeight - 1 else drawEnd0
    let wallPos : Vector :=
      if st.side = 0 then ⟨(st.mapX : ℚ), player.Position.Y + perpWallDist * rayDir.Y⟩
      else ⟨player.Position.X + perpWallDist * rayDir.X, (st.mapY : ℚ)⟩
    let r := { r with zBuffer := fun i => if i = x then perpWallDist else r.zBuffer i }
    let wallType := worldMap.GetWallType st.mapX st.mapY
    let wallColor := getWallColor wallType st.side perpWallDist wallPos lights
    let screen := (intRange drawStart (drawEnd + 1)).foldl
      (fun s y => s.SetCell x y '█' wallColor wallColor) screen
    let screen := (intRange 0 drawStart).foldl
      (fun s y =>
        let rowDistance0 : ℚ := (gameHeight : ℚ) / (2.0 * ((gameHeight.tdiv 2 - y : ℤ) : ℚ) - 1.0)
        let rowDistance := if rowDistance0 < 0 then perpWallDist else rowDistance0
        let ceilingColor := getCeilingColor rowDistance
        s.SetCell x y ' ' ceilingColor ceilingColor) screen
    let screen := (intRange (drawEnd + 1) gameHeight).foldl
      (fun s y =>
        let rowDistance0 : ℚ := (gameHeight : ℚ) / (2.0 * ((y - gameHeight.tdiv 2 : ℤ) : ℚ) - 1.0)
        let rowDistance := if rowDistance0 < 0 then perpWallDist else rowDistance0
        let floorColor := getFloorColor rowDistance
        s.SetCell x y ' ' floorColor floorColor) screen
    (r, screen)

/-- A renderable sprite (type `sprite` in the source; the kind tag is the
source's string). -/
structure Sprite where
  pos : Vector
  transformedX : ℚ
  transformedY : ℚ
  spriteType : String
deriving DecidableEq, Repr

/-- Sprite collection of `renderAllSprites`: live fireball projectiles then
other players, each transformed into the viewing player's camera frame and
discarded when at or behind the near plane (`transformedY ≤ 0.1`). -/
def collectSprites (player : Player) (projectiles : List Projectile)
    (otherPlayers : List Player) : List Sprite :=
  let fireballSprites := projectiles.filterMap (fun projectile =>
    if !projectile.Active || projectile.Type' != Fireball then none
    else
      let relativePos := projectile.Position.Sub player.Position
      let transformedY := relativePos.X * player.Direction.X + relativePos.Y * player.Direction.Y
      let transformedX :=
        relativePos.X * player.Direction.Y + relativePos.Y * (-player.Direction.X)
      if transformedY ≤ 0.1 then none
      else some ⟨projectile.Position, transformedX, transformedY, "fireball"⟩)
  let playerSprites := otherPlayers.filterMap (fun otherPlayer =>
    let relativePos := otherPlayer.Position.Sub player.Position
    let transformedY := relativePos.X * player.Direction.X + relativePos.Y * player.Direction.Y
    let transformedX :=
      relativePos.X * player.Direction.Y + relativePos.Y * (-player.Direction.X)
    if transformedY ≤ 0.1 then none
    else some ⟨otherPlayer.Position, transformedX, transformedY, "player"⟩)
  fireballSprites ++ playerSprites

/-- Swap of two list positions, for the in-place sort of the source. -/
def listSwap (l : List Sprite) (i j : ℕ) : List Sprite :=
  match l.get? i, l.get? j with
  | some a, some b => (l.set i b).set j a
  | _, _ => l

/-- One comparison/swap `if sprites[i].transformedY < sprites[j].transformedY`. -/
def sortStep (l : List Sprite) (i j : ℕ) : List Sprite :=
  match l.get? i, l.get? j with
  | some si, some sj => if si.transformedY < sj.transformedY then listSwap l i j else l
  | _, _ => l

/-- The double-loop exchange sort of `renderAllSprites` (farthest first):
outer `i` over `[0, len-1)`, inner `j` over `[i+1, len)`. -/
def sortSprites (l : List Sprite) : List Sprite :=
  (natRange 0 (l.length - 1)).foldl
    (fun acc i => (natRange (i + 1) l.length).foldl (fun acc2 j => sortStep acc2 i j) acc)
    l

/-- One screen column `screenX + xOffset` of a sprite draw: the z-buffer
test `transformedY < zBuffer[drawX] + 0.1` guards the column, then each row
of the vertical span is written when the radial intensity mask passes. -/
def renderSpriteColumn (r : Renderer) (spr : Sprite) (screenX startY endY spriteSize
    spriteWidth : ℤ) (spriteChar : Char) (spriteColor : Color) (s : Screen)
    (xOffset : ℤ) : Screen :=
  let drawX := screenX + xOffset
  if 0 ≤ drawX ∧ drawX < r.screenWidth ∧ spr.transformedY < r.zBuffer drawX + 0.1 then
    (intRange startY (endY + 1)).foldl
      (fun s2 y =>
        let centerY := startY + (endY - startY).tdiv 2
        if spr.spriteType = "fireball" then
          let distFromCenter := |((y - centerY : ℤ) : ℚ)| / ((spriteSize.tdiv 2 + 1 : ℤ) : ℚ)
          let distFromCenterX := |((xOffset : ℤ) : ℚ)| / ((spriteWidth.tdiv 2 + 1 : ℤ) : ℚ)
          let intensity := 1.0 - Rat.sqrt
            (distFromCenter * distFromCenter + distFromCenterX * distFromCenterX)
          if intensity > 0.1 then
            let finalColor : Color :=
              ⟨u8 (min 255 ((spriteColor.R : ℚ) * intensity * 1.2)),
               u8 (min 255 ((spriteColor.G : ℚ) * intensity * 1.2)),
               u8 (min 255 ((spriteColor.B : ℚ) * intensity * 1.2)), 255⟩
            s2.SetCell drawX y spriteChar finalColor finalColor
          else s2
        else
          let distFromCenter := |((y - centerY : ℤ) : ℚ)| / ((spriteSize.tdiv 2 + 1 : ℤ) : ℚ)
          let distFromCenterX := |((xOffset : ℤ) : ℚ)| / ((spriteWidth.tdiv 2 + 1 : ℤ) : ℚ)
          let intensity := 1.0 - Rat.sqrt
            (distFromCenter * distFromCenter + distFromCenterX * distFromCenterX * 0.5)
          if intensity > 0.05 then
            let finalColor : Color :=
              ⟨u8 (min 255 ((spriteColor.R : ℚ) * intensity * 1.5)),
               u8 (min 255 ((spriteColor.G : ℚ) * intensity * 1.5)),
               u8 (min 255 ((spriteColor.B : ℚ) * intensity * 1.5)), 255⟩
            s2.SetCell drawX y spriteChar finalColor finalColor
          else s2)
      s
  else s

/-- The sprite pass of `renderSprite`: one sprite, projected, sized, and drawn column by column
under the z-buffer test `transformedY < zBuffer[drawX] + 0.1`. -/
def renderSprite (r : Renderer) (spr : Sprite) (player : Player) (screen : Screen) : Screen :=
  let gameHeight := screen.GameHeight
  let cameraPlaneLength :=
    Rat.sqrt (player.CameraPlane.X * player.CameraPlane.X +
      player.CameraPlane.Y * player.CameraPlane.Y)
  let spriteScreenX := spr.transformedX / spr.transformedY / cameraPlaneLength
  let screenX := goTrunc ((r.screenWidth : ℚ) / 2 * (1.0 + spriteScreenX))
  if screenX < 0 ∨ screenX ≥ r.screenWidth then screen
  else if spr.spriteType = "fireball" ∨ spr.spriteType = "player" then
    let spriteSize0 : ℤ :=
      if spr.spriteType = "fireball" then goTrunc ((gameHeight : ℚ) / spr.transformedY * 0.5)
      else
        let baseSize := (gameHeight : ℚ) / spr.transformedY * 1.2
        let rounded := goTrunc (baseSize + 0.5)
        if rounded < 4 then 4 else rounded
    let spriteChar : Char := if spr.spriteType = "fireball" then '●' else '@'
    let spriteColor : Color :=
      if spr.spriteType = "fireball" then ⟨255, 150, 0, 255⟩ else ⟨0, 255, 0, 255⟩
    let spriteSize1 := if spriteSize0 < 1 then 1 else spriteSize0
    let spriteSize := if spriteSize1 > gameHeight.tdiv 2 then gameHeight.tdiv 2 else spriteSize1
    let startY0 := gameHeight.tdiv 2 - spriteSize.tdiv 2
    let startY := if startY0 < 0 then 0 else startY0
    let endY0 := gameHeight.tdiv 2 + spriteSize.tdiv 2
    let endY := if endY0 ≥ gameHeight then gameHeight - 1 else endY0
    let spriteWidth0 : ℤ :=
      if spr.spriteType = "player" then (spriteSize * 3).tdiv 4 else spriteSize.tdiv 3
    let spriteWidth := if spriteWidth0 < 1 then 1 else spriteWidth0
    (intRange ((-spriteWidth).tdiv 2) (spriteWidth.tdiv 2 + 1)).foldl
      (renderSpriteColumn r spr screenX startY endY spriteSize spriteWidth spriteChar
        spriteColor)
      screen
  else screen

/-- The sprite pass `renderAllSprites`: collect, sort farthest-to-nearest, then draw in
order so nearer sprites overwrite farther ones. -/
def renderAllSprites (r : Renderer) (player : Player) (screen : Screen)
    (projectiles : List Projectile) (otherPlayers : List Player) : Screen :=
  let sprites := sortSprites (collectSprites player projectiles otherPlayers)
  sprites.foldl (fun s spr => renderSprite r spr player s) screen

/-- The full frame render: clear, reset the z-buffer, walls/ceiling/floor
column by column, then the sprite pass. -/
def Render (r : Renderer) (player : Player) (worldMap : Map) (screen : Screen)
    (lights : List LightSource) (projectiles : List Projectile)
    (otherPlayers : List Player) : Renderer × Screen :=
  let screen := screen.Clear
  let r := { r with zBuffer := fun _ => 1e30 }
  let rs := (intRange 0 r.screenWidth).foldl
    (fun (p : Renderer × Screen) x => renderColumn worldMap player lights x p.1 p.2)
    (r, screen)
  (rs.1, renderAllSprites rs.1 player rs.2 projectiles otherPlayers)

/-- Iterated world ticks of the projectile manager (`Update` once per
element of `dts`, in order). -/
def runTicks (pm : ProjectileManager) (dts : List ℚ) (worldMap : Map) : ProjectileManager :=
  dts.foldl (fun acc d => acc.Update d worldMap) pm

/-- The projectile's per-tick destination cells stay clear of walls for the
given sequence of ticks. -/
def pathClearB (worldMap : Map) (p : Projectile) : List ℚ → Bool
  | [] => true
  | d :: rest =>
    let newPos := p.Position.Add (p.Direction.Scale (p.Speed * d))
    !(worldMap.IsWall (goTrunc newPos.X) (goTrunc newPos.Y)) &&
      pathClearB worldMap (p.Update d worldMap) rest

/-! ## Helper lemmas -/

lemma ratSqrt_pos {q : ℚ} (h : 0 < q) : 0 < Rat.sqrt q := by
  have hn : 0 < q.num := Rat.num_pos.mpr h
  have h1 : 0 < q.num.toNat := by omega
  have hsn : Int.sqrt q.num ≠ 0 := by
    have h2 : Nat.sqrt q.num.toNat ≠ 0 := Nat.pos_iff_ne_zero.mp (Nat.sqrt_pos.mpr h1)
    simpa [Int.sqrt] using h2
  have hd : q.den.sqrt ≠ 0 := Nat.pos_iff_ne_zero.mp (Nat.sqrt_pos.mpr q.den_pos)
  have hne : Rat.sqrt q ≠ 0 := by
    rw [Rat.sqrt]
    exact (Rat.mkRat_ne_zero hd).mpr hsn
  exact lt_of_le_of_ne (Rat.sqrt_nonneg q) (Ne.symm hne)

lemma ratSqrt_eval {a b : ℚ} (hb : 0 ≤ b) (hab : b * b = a) : Rat.sqrt a = b := by
  rw [← hab, Rat.sqrt_eq, abs_of_nonneg hb]

/-! ## Claims -/

lemma projectile_step_alive {m : Map} {p : Projectile} {d : ℚ} (hA : p.Active = true)
    (hL : 0 < p.Life - d)
    (hw : m.IsWall (goTrunc (p.Position.Add (p.Direction.Scale (p.Speed * d))).X)
      (goTrunc (p.Position.Add (p.Direction.Scale (p.Speed * d))).Y) = false) :
    p.Update d m =
      { p with Life := p.Life - d,
               Position := p.Position.Add (p.Direction.Scale (p.Speed * d)) } := by
  have hL' : ¬(p.Life - d ≤ 0) := by linarith
  simp [Projectile.Update, hA, hL', hw]

/-- Core lifecycle invariant: from an active projectile, a sequence of
nonnegative ticks whose total stays below the remaining life and whose path
stays clear of walls keeps the projectile active, drains exactly the sum
from its life, and keeps the (singleton) manager set intact. -/
lemma projTicks_invariant (m : Map) :
    ∀ (dts : List ℚ) (p : Projectile), p.Active = true → (∀ d ∈ dts, 0 ≤ d) →
      dts.sum < p.Life → pathClearB m p dts = true →
      (dts.foldl (fun q d => q.Update d m) p).Active = true ∧
      (dts.foldl (fun q d => q.Update d m) p).Life = p.Life - dts.sum ∧
      (dts.foldl (fun q d => q.Update d m) p).MaxLife = p.MaxLife ∧
      runTicks ⟨[p]⟩ dts m = ⟨[dts.foldl (fun q d => q.Update d m) p]⟩
  | [], p, hA, _, _, _ => by simp [hA, runTicks]
  | d :: rest, p, hA, hnn, hsum, hclear => by
    have hd0 : 0 ≤ d := hnn d (List.mem_cons_self d rest)
    have hrestnn : ∀ x ∈ rest, 0 ≤ x := fun x hx => hnn x (List.mem_cons_of_mem d hx)
    have hrestsum : 0 ≤ rest.sum := List.sum_nonneg hrestnn
    rw [List.sum_cons] at hsum
    have hL : 0 < p.Life - d := by linarith
    rw [pathClearB, Bool.and_eq_true, Bool.not_eq_true'] at hclear
    obtain ⟨hw, hclear'⟩ := hclear
    have hstep := projectile_step_alive hA hL hw
    have hpActive : (p.Update d m).Active = true := by rw [hstep]; exact hA
    have hpLife : (p.Update d m).Life = p.Life - d := by rw [hstep]
    have hpMax : (p.Update d m).MaxLife = p.MaxLife := by rw [hstep]
    have hsum' : rest.sum < (p.Update d m).Life := by rw [hpLife]; linarith
    have ih := projTicks_invariant m rest (p.Update d m) hpActive hrestnn hsum' hclear'
    have hmgr : ProjectileManager.Update ⟨[p]⟩ d m = ⟨[p.Update d m]⟩ := by
      simp [ProjectileManager.Update, hpActive]
    refine ⟨?_, ?_, ?_, ?_⟩
    · simp only [List.foldl_cons]
      exact ih.1
    · simp only [List.foldl_cons]
      rw [ih.2.1, hpLife, List.sum_cons]
      ring
    · simp only [List.foldl_cons]
      rw [ih.2.2.1, hpMax]
    · have h4 := ih.2.2.2
      rw [runTicks] at h4 ⊢
      simp only [List.foldl_cons]
      rw [hmgr]
      exact h4

/-- C4: per-tick projectile semantics — life is drained first and the
projectile deactivates (without moving) when it reaches `≤ 0`; otherwise it
advances by `direction·speed·dt`, deactivating unmoved when the destination
cell is a wall.  Consequently a projectile with `Life = MaxLife = 3.0`
survives any clear-path tick sequence summing below `3.0` with life
`3.0 − Σdt`, and is purged from the manager's set at the first tick where
the cumulative sum reaches `3.0`. -/
theorem spec_C4 :
    (∀ (p : Projectile) (dt : ℚ) (m : Map), p.Active = true → p.Life - dt ≤ 0 →
      p.Update dt m = { p with Life := p.Life - dt, Active := false }) ∧
    (∀ (p : Projectile) (dt : ℚ) (m : Map), p.Active = true → 0 < p.Life - dt →
      (m.IsWall (goTrunc (p.Position.Add (p.Direction.Scale (p.Speed * dt))).X)
          (goTrunc (p.Position.Add (p.Direction.Scale (p.Speed * dt))).Y) = true →
        p.Update dt m = { p with Life := p.Life - dt, Active := false }) ∧
      (m.IsWall (goTrunc (p.Position.Add (p.Direction.Scale (p.Speed * dt))).X)
          (goTrunc (p.Position.Add (p.Direction.Scale (p.Speed * dt))).Y) = false →
        p.Update dt m =
          { p with Life := p.Life - dt,
                   Position := p.Position.Add (p.Direction.Scale (p.Speed * dt)) })) ∧
    (∀ (m : Map) (p : Projectile) (dts : List ℚ), p.Active = true → p.Life = 3.0 →
      p.MaxLife = 3.0 → (∀ d ∈ dts, 0 ≤ d) → dts.sum < 3.0 → pathClearB m p dts = true →
      ∃ q, (runTicks ⟨[p]⟩ dts m).Projectiles = [q] ∧ q.Active = true ∧
        q.Life = 3.0 - dts.sum ∧ q.MaxLife = 3.0) ∧
    (∀ (m : Map) (p : Projectile) (pre : List ℚ) (d : ℚ), p.Active = true → p.Life = 3.0 →
      p.MaxLife = 3.0 → (∀ x ∈ pre, 0 ≤ x) → pre.sum < 3.0 → 3.0 ≤ pre.sum + d →
      pathClearB m p pre = true →
      (runTicks ⟨[p]⟩ (pre ++ [d]) m).Projectiles = []) := by
  refine ⟨?_, ?_, ?_, ?_⟩
  · intro p dt m hA h0
    simp [Projectile.Update, hA, h0]
  · intro p dt m hA h0
    constructor
    · intro hw
      have h0' : ¬(p.Life - dt ≤ 0) := by linarith
      simp [Projectile.Update, hA, h0', hw]
    · intro hw
      exact projectile_step_alive hA h0 hw
  · intro m p dts hA hL hM hnn hsum hclear
    have inv := projTicks_invariant m dts p hA hnn (by rw [hL]; exact hsum) hclear
    refine ⟨_, ?_, inv.1, ?_, ?_⟩
    · rw [inv.2.2.2]
    · rw [inv.2.1, hL]
    · rw [inv.2.2.1, hM]
  · intro m p pre d hA hL hM hnn hsum hd hclear
    have inv := projTicks_invariant m pre p hA hnn (by rw [hL]; exact hsum) hclear
    rw [runTicks, List.foldl_append]
    have hpre := inv.2.2.2
    rw [runTicks] at hpre
    rw [hpre]
    simp only [List.foldl_cons, List.foldl_nil]
    set q := pre.foldl (fun q d => q.Update d m) p with hq
    have hdead : (q.Update d m).Active = false := by
      have hle : q.Life - d ≤ 0 := by
        rw [inv.2.1, hL]
        linarith
      simp [Projectile.Update, inv.1, hle]
    simp [ProjectileManager.Update, hdead]

/-- Witness for C4 on the default maze: a fireball at `(1.5, 1.5)` headed
along `+Y`; one expiring tick, one clear advancing tick, a surviving
one-tick run, and a two-tick run that dies exactly at cumulative life 3. -/
theorem spec_C4_witness :
    (Projectile.Update ⟨⟨1.5, 1.5⟩, ⟨0, 1⟩, 8.0, 3.0, 3.0, true, Fireball⟩ 3.0 NewMap =
      { Position := ⟨1.5, 1.5⟩, Direction := ⟨0, 1⟩, Speed := 8.0, Life := 3.0 - 3.0,
        MaxLife := 3.0, Active := false, Type' := Fireball }) ∧
    (Projectile.Update ⟨⟨1.5, 1.5⟩, ⟨0, 1⟩, 8.0, 3.0, 3.0, true, Fireball⟩ 0.1 NewMap =
      { Position := Vector.Add ⟨1.5, 1.5⟩ (Vector.Scale ⟨0, 1⟩ (8.0 * 0.1)),
        Direction := ⟨0, 1⟩, Speed := 8.0, Life := 3.0 - 0.1, MaxLife := 3.0,
        Active := true, Type' := Fireball }) ∧
    (∃ q, (runTicks ⟨[⟨⟨1.5, 1.5⟩, ⟨0, 1⟩, 8.0, 3.0, 3.0, true, Fireball⟩]⟩ [0.1]
        NewMap).Projectiles = [q] ∧ q.Active = true ∧ q.Life = 3.0 - List.sum [0.1] ∧
        q.MaxLife = 3.0) ∧
    (runTicks ⟨[⟨⟨1.5, 1.5⟩, ⟨0, 1⟩, 8.0, 3.0, 3.0, true, Fireball⟩]⟩ ([0.1] ++ [2.9])
        NewMap).Projectiles = [] := by
  have hwall : NewMap.IsWall
      (goTrunc ((Vector.Add ⟨1.5, 1.5⟩ (Vector.Scale ⟨0, 1⟩ (8.0 * 0.1))).X))
      (goTrunc ((Vector.Add ⟨1.5, 1.5⟩ (Vector.Scale ⟨0, 1⟩ (8.0 * 0.1))).Y)) = false := by
    norm_num [Vector.Add, Vector.Scale, goTrunc, Map.IsWall, Map.cellAt, NewMap]
    decide
  have hclear : pathClearB NewMap ⟨⟨1.5, 1.5⟩, ⟨0, 1⟩, 8.0, 3.0, 3.0, true, Fireball⟩
      [0.1] = true := by
    rw [pathClearB, Bool.and_eq_true, Bool.not_eq_true']
    exact ⟨hwall, rfl⟩
  refine ⟨spec_C4.1 _ _ _ rfl (by norm_num), ?_, ?_, ?_⟩
  · exact (spec_C4.2.1 _ _ _ rfl (by norm_num)).2 hwall
  · exact spec_C4.2.2.1 NewMap _ [0.1] rfl rfl rfl (by norm_num) (by norm_num) hclear
  · exact spec_C4.2.2.2 NewMap _ [0.1] 2.9 rfl rfl rfl (by norm_num) (by norm_num)
      (by norm_num) hclear

lemma foldl_append_collect {α β : Type} (f : α → List β) :
    ∀ (l : List α) (init : List β),
      l.foldl (fun acc y => acc ++ f y) init = init ++ l.flatMap f
  | [], init => by simp
  | a :: l, init => by
    rw [List.foldl_cons, foldl_append_collect f l (init ++ f a), List.flatMap_cons,
      List.append_assoc]

/-- Every coordinate pair collected by the empty-space scan denotes a
passable (`0`) grid cell. -/
lemma emptySpaces_mem {m : Map} {xy : ℤ × ℤ} (h : xy ∈ emptySpacesOf m) :
    m.cellAt xy.1 xy.2 = 0 := by
  rw [emptySpacesOf, foldl_append_collect, List.nil_append] at h
  obtain ⟨y, _, hy⟩ := List.mem_flatMap.mp h
  obtain ⟨x, _, hx⟩ := List.mem_filterMap.mp hy
  by_cases hc : (m.Grid.getD y []).getD x 0 = 0
  · rw [if_pos hc] at hx
    obtain rfl : ((x : ℤ), (y : ℤ)) = xy := Option.some.inj hx
    simpa [Map.cellAt] using hc
  · rw [if_neg hc] at hx
    cases hx

lemma mapLookup_insert (players : List (String × PlayerSession)) (k : String)
    (v : PlayerSession) : mapLookup (mapInsert players k v) k = some v := by
  rw [mapLookup, mapInsert]
  induction players with
  | nil => simp
  | cons kv rest ih =>
    by_cases h : kv.1 = k
    · simp [List.filter_cons, h, ih]
    · simp [List.filter_cons, h, List.find?_cons, ih]

/-- A non-wall answer implies the queried cell is inside the grid. -/
lemma isWall_false_bounds {m : Map} {x y : ℤ} (h : m.IsWall x y = false) :
    0 ≤ x ∧ x < m.Width ∧ 0 ≤ y ∧ y < m.Height := by
  rw [Map.IsWall] at h
  by_cases hc : x < 0 ∨ x ≥ m.Width ∨ y < 0 ∨ y ≥ m.Height
  · rw [if_pos hc] at h
    cases h
  · push_neg at hc
    omega

/-- Termination measure for the DDA march: remaining steps on each axis
until the ray leaves the grid in its fixed step direction. -/
def ddaMeasure (m : Map) (st : DDA) : ℤ :=
  (if st.stepX = 1 then m.Width - st.mapX else st.mapX + 1) +
    (if st.stepY = 1 then m.Height - st.mapY else st.mapY + 1)

/-- Whenever the DDA loop answers, the reported cell is a wall. -/
lemma ddaLoop_some_wall (m : Map) :
    ∀ (fuel : ℕ) (st r : DDA), ddaLoop m fuel st = some r → m.IsWall r.mapX r.mapY = true
  | 0, _, _, h => by cases h
  | fuel + 1, st, r, h => by
    rw [ddaLoop] at h
    set st' :=
      if st.sideDistX < st.sideDistY then
        { st with sideDistX := st.sideDistX + st.deltaDistX, mapX := st.mapX + st.stepX,
                  side := 0 }
      else
        { st with sideDistY := st.sideDistY + st.deltaDistY, mapY := st.mapY + st.stepY,
                  side := 1 }
    by_cases hw : m.IsWall st'.mapX st'.mapY = true
    · rw [if_pos hw] at h
      exact Option.some.inj h ▸ hw
    · rw [if_neg hw] at h
      exact ddaLoop_some_wall m fuel st' r h

/-- With step signs `±1` and an in-bounds current cell, the DDA loop
answers within `ddaMeasure` further iterations. -/
lemma ddaLoop_terminates (m : Map) :
    ∀ (fuel : ℕ) (st : DDA), (st.stepX = 1 ∨ st.stepX = -1) →
      (st.stepY = 1 ∨ st.stepY = -1) → 0 ≤ st.mapX → st.mapX < m.Width →
      0 ≤ st.mapY → st.mapY < m.Height → ddaMeasure m st ≤ (fuel : ℤ) →
      (ddaLoop m fuel st).isSome = true
  | 0, st, hsx, hsy, hx0, hx1, hy0, hy1, hfuel => by
    exfalso
    rw [ddaMeasure] at hfuel
    rcases hsx with h | h <;> rcases hsy with h' | h' <;>
      simp only [h, h', if_pos, if_neg, reduceCtorEq] at hfuel <;> omega
  | fuel + 1, st, hsx, hsy, hx0, hx1, hy0, hy1, hfuel => by
    rw [ddaLoop]
    by_cases hxy : st.sideDistX < st.sideDistY
    · rw [if_pos hxy]
      set st' := { st with sideDistX := st.sideDistX + st.deltaDistX,
                           mapX := st.mapX + st.stepX, side := 0 } with hst'
      by_cases hw : m.IsWall st'.mapX st'.mapY = true
      · rw [if_pos hw]
        rfl
      · rw [if_neg hw]
        have hb := isWall_false_bounds (Bool.eq_false_iff.mpr hw)
        have hmeas : ddaMeasure m st' = ddaMeasure m st - 1 := by
          rw [ddaMeasure, ddaMeasure, hst']
          rcases hsx with h | h <;> simp [h] <;> ring
        exact ddaLoop_terminates m fuel st' (by simpa [hst'] using hsx)
          (by simpa [hst'] using hsy) hb.1 hb.2.1 hb.2.2.1 hb.2.2.2 (by omega)
    · rw [if_neg hxy]
      set st' := { st with sideDistY := st.sideDistY + st.deltaDistY,
                           mapY := st.mapY + st.stepY, side := 1 } with hst'
      by_cases hw : m.IsWall st'.mapX st'.mapY = true
      · rw [if_pos hw]
        rfl
      · rw [if_neg hw]
        have hb := isWall_false_bounds (Bool.eq_false_iff.mpr hw)
        have hmeas : ddaMeasure m st' = ddaMeasure m st - 1 := by
          rw [ddaMeasure, ddaMeasure, hst']
          rcases hsy with h | h <;> simp [h] <;> ring
        exact ddaLoop_terminates m fuel st' (by simpa [hst'] using hsx)
          (by simpa [hst'] using hsy) hb.1 hb.2.1 hb.2.2.1 hb.2.2.2 (by omega)

/-- C3: from any camera cell strictly inside the grid and for every ray
direction, the DDA march of `Render` hits a wall within `Width + Height`
traversal steps (out-of-bounds coordinates count as walls). -/
theorem spec_C3 (worldMap : Map) (player : Player) (rayDir : Vector)
    (hx0 : 0 ≤ goTrunc player.Position.X) (hx1 : goTrunc player.Position.X < worldMap.Width)
    (hy0 : 0 ≤ goTrunc player.Position.Y) (hy1 : goTrunc player.Position.Y < worldMap.Height) :
    ∃ r : DDA,
      ddaLoop worldMap (worldMap.Width + worldMap.Height).toNat (ddaInit player rayDir) =
        some r ∧ worldMap.IsWall r.mapX r.mapY = true := by
  have hsx : (ddaInit player rayDir).stepX = 1 ∨ (ddaInit player rayDir).stepX = -1 := by
    rw [ddaInit]
    by_cases h : rayDir.X < 0
    · right
      simp [h]
    · left
      simp [h]
  have hsy : (ddaInit player rayDir).stepY = 1 ∨ (ddaInit player rayDir).stepY = -1 := by
    rw [ddaInit]
    by_cases h : rayDir.Y < 0
    · right
      simp [h]
    · left
      simp [h]
  have hmx : (ddaInit player rayDir).mapX = goTrunc player.Position.X := rfl
  have hmy : (ddaInit player rayDir).mapY = goTrunc player.Position.Y := rfl
  have hfuel : ddaMeasure worldMap (ddaInit player rayDir) ≤
      (((worldMap.Width + worldMap.Height).toNat : ℕ) : ℤ) := by
    rw [ddaMeasure, hmx, hmy]
    rcases hsx with h | h <;> rcases hsy with h' | h' <;> rw [h, h'] <;> push_cast <;>
      simp <;> omega
  have hsome := ddaLoop_terminates worldMap (worldMap.Width + worldMap.Height).toNat
    (ddaInit player rayDir) hsx hsy (hmx ▸ hx0) (hmx ▸ hx1) (hmy ▸ hy0) (hmy ▸ hy1) hfuel
  obtain ⟨r, hr⟩ := Option.isSome_iff_exists.mp hsome
  exact ⟨r, hr, ddaLoop_some_wall worldMap _ _ r hr⟩

/-- Witness for C3: the scenario camera `(1.5, 1.5)` on the default maze
with the center ray of a west-facing view. -/
theorem spec_C3_witness :
    ∃ r : DDA,
      ddaLoop NewMap (NewMap.Width + NewMap.Height).toNat
          (ddaInit (NewPlayer 1.5 1.5) ⟨-1, 0⟩) = some r ∧
        NewMap.IsWall r.mapX r.mapY = true :=
  spec_C3 NewMap (NewPlayer 1.5 1.5) ⟨-1, 0⟩
    (by norm_num [NewPlayer, goTrunc]; decide) (by norm_num [NewPlayer, goTrunc, NewMap]; decide)
    (by norm_num [NewPlayer, goTrunc]; decide) (by norm_num [NewPlayer, goTrunc, NewMap]; decide)

lemma foldl_preserve {α β : Type} (P : β → Prop) {f : β → α → β}
    (hf : ∀ b a, P b → P (f b a)) : ∀ (l : List α) {b : β}, P b → P (l.foldl f b)
  | [], _, hb => hb
  | a :: l, b, hb => foldl_preserve P hf l (hf b a hb)

/-- Screen `s` agrees with the base screen `s0` on its dimensions and on every HUD
row (rows at or below `GameHeight`). -/
def hudSafe (s0 s : Screen) : Prop :=
  s.Width = s0.Width ∧ s.Height = s0.Height ∧ s.GameHeight = s0.GameHeight ∧
    ∀ y x : ℤ, s0.GameHeight ≤ y → s.Buffer y x = s0.Buffer y x

lemma hudSafe_refl (s : Screen) : hudSafe s s := ⟨rfl, rfl, rfl, fun _ _ _ => rfl⟩

lemma hudSafe_SetCell {s0 s : Screen} (h : hudSafe s0 s) (x y : ℤ) (c : Char)
    (fg bg : Color) : hudSafe s0 (s.SetCell x y c fg bg) := by
  rw [Screen.SetCell]
  by_cases hin : 0 ≤ x ∧ x < s.Width ∧ 0 ≤ y ∧ y < s.GameHeight
  · rw [if_pos hin]
    refine ⟨h.1, h.2.1, h.2.2.1, fun y' x' hy' => ?_⟩
    have hne : ¬(y' = y ∧ x' = x) := by
      rintro ⟨rfl, rfl⟩
      rw [h.2.2.1] at hin
      omega
    show (if y' = y ∧ x' = x then _ else s.Buffer y' x') = s0.Buffer y' x'
    rw [if_neg hne]
    exact h.2.2.2 y' x' hy'
  · rw [if_neg hin]
    exact h

lemma hudSafe_Clear {s0 s : Screen} (h : hudSafe s0 s) : hudSafe s0 s.Clear := by
  refine ⟨h.1, h.2.1, h.2.2.1, fun y x hy => ?_⟩
  show (if 0 ≤ y ∧ y < s.GameHeight ∧ 0 ≤ x ∧ x < s.Width then defaultCell
    else s.Buffer y x) = s0.Buffer y x
  have hne : ¬(0 ≤ y ∧ y < s.GameHeight ∧ 0 ≤ x ∧ x < s.Width) := by
    rw [h.2.2.1]
    omega
  rw [if_neg hne]
  exact h.2.2.2 y x hy

lemma hudSafe_renderColumn (s0 : Screen) (worldMap : Map) (player : Player)
    (lights : List LightSource) (x : ℤ) (r : Renderer) {s : Screen} (h : hudSafe s0 s) :
    hudSafe s0 (renderColumn worldMap player lights x r s).2 := by
  rw [renderColumn]
  cases ddaLoop worldMap (ddaFuel worldMap)
      (ddaInit player (player.Direction.Add
        (player.CameraPlane.Scale (2 * (x : ℚ) / (r.screenWidth : ℚ) - 1)))) with
  | none => exact h
  | some st =>
    dsimp only
    exact foldl_preserve (hudSafe s0) (fun s' a hs' => hudSafe_SetCell hs' _ _ _ _ _) _
      (foldl_preserve (hudSafe s0) (fun s' a hs' => hudSafe_SetCell hs' _ _ _ _ _) _
        (foldl_preserve (hudSafe s0) (fun s' a hs' => hudSafe_SetCell hs' _ _ _ _ _) _ h))

lemma hudSafe_renderSpriteColumn (s0 : Screen) (r : Renderer) (spr : Sprite)
    (screenX startY endY spriteSize spriteWidth : ℤ) (spriteChar : Char)
    (spriteColor : Color) {s : Screen} (h : hudSafe s0 s) (xOffset : ℤ) :
    hudSafe s0 (renderSpriteColumn r spr screenX startY endY spriteSize spriteWidth
      spriteChar spriteColor s xOffset) := by
  rw [renderSpriteColumn]
  lift_lets
  intros
  split
  · refine foldl_preserve (hudSafe s0) (fun s2 a' hs2 => ?_) _ h
    lift_lets
    intros
    split
    · lift_lets
      intros
      split
      · exact hudSafe_SetCell hs2 _ _ _ _ _
      · exact hs2
    · lift_lets
      intros
      split
      · exact hudSafe_SetCell hs2 _ _ _ _ _
      · exact hs2
  · exact h

lemma hudSafe_renderSprite (s0 : Screen) (r : Renderer) (spr : Sprite) (player : Player)
    {s : Screen} (h : hudSafe s0 s) : hudSafe s0 (renderSprite r spr player s) := by
  rw [renderSprite]
  lift_lets
  intros
  split
  · exact h
  · split
    · lift_lets
      intros
      exact foldl_preserve (hudSafe s0)
        (fun s' a hs' => hudSafe_renderSpriteColumn s0 r spr _ _ _ _ _ _ _ hs' a) _ h
    · exact h

lemma hudSafe_renderAllSprites (s0 : Screen) (r : Renderer) (player : Player) {s : Screen}
    (projectiles : List Projectile) (otherPlayers : List Player) (h : hudSafe s0 s) :
    hudSafe s0 (renderAllSprites r player s projectiles otherPlayers) :=
  foldl_preserve (hudSafe s0) (fun s' spr hs' => hudSafe_renderSprite s0 r spr player hs') _ h

lemma hudSafe_Render (r : Renderer) (player : Player) (worldMap : Map) (screen : Screen)
    (lights : List LightSource) (projectiles : List Projectile)
    (otherPlayers : List Player) :
    hudSafe screen (Render r player worldMap screen lights projectiles otherPlayers).2 := by
  rw [Render]
  refine hudSafe_renderAllSprites _ _ _ _ _ ?_
  have hbase : hudSafe screen screen.Clear := hudSafe_Clear (hudSafe_refl screen)
  exact (foldl_preserve (fun p : Renderer × Screen => hudSafe screen p.2)
    (fun p a hp => hudSafe_renderColumn screen worldMap player lights a p.1 hp) _ hbase)

lemma setCell_other_col {s : Screen} {x c : ℤ} (hx : x ≠ c) (y : ℤ) (ch : Char)
    (fg bg : Color) (y' : ℤ) : (s.SetCell x y ch fg bg).Buffer y' c = s.Buffer y' c := by
  rw [Screen.SetCell]
  split
  · show (if y' = y ∧ c = x then _ else s.Buffer y' c) = s.Buffer y' c
    rw [if_neg (fun hc => hx hc.2.symm)]
  · rfl

/-- A sprite whose forward distance fails the z-test for column `c` (that
is, `zBuffer c + 0.1 ≤ transformedY`) never writes into column `c`. -/
lemma renderSpriteColumn_other_col {r : Renderer} {spr : Sprite} {c : ℤ}
    (hz : r.zBuffer c + 0.1 ≤ spr.transformedY) (screenX startY endY spriteSize
    spriteWidth : ℤ) (spriteChar : Char) (spriteColor : Color) (s : Screen) (xOffset : ℤ)
    (y' : ℤ) :
    (renderSpriteColumn r spr screenX startY endY spriteSize spriteWidth spriteChar
      spriteColor s xOffset).Buffer y' c = s.Buffer y' c := by
  rw [renderSpriteColumn]
  lift_lets
  intros
  split
  · rename_i hguard
    have hne : screenX + xOffset ≠ c := fun hcc =>
      absurd (hcc ▸ hguard.2.2) (not_lt.mpr hz)
    refine foldl_preserve (fun s2 : Screen => s2.Buffer y' c = s.Buffer y' c)
      (fun s2 a' hs2 => ?_) _ rfl
    lift_lets
    intros
    split
    · lift_lets
      intros
      split
      · rw [setCell_other_col hne]
        exact hs2
      · exact hs2
    · lift_lets
      intros
      split
      · rw [setCell_other_col hne]
        exact hs2
      · exact hs2
  · rfl

lemma renderSprite_other_col {r : Renderer} {spr : Sprite} {c : ℤ}
    (hz : r.zBuffer c + 0.1 ≤ spr.transformedY) (player : Player) (screen : Screen)
    (y : ℤ) : (renderSprite r spr player screen).Buffer y c = screen.Buffer y c := by
  rw [renderSprite]
  lift_lets
  intros
  split
  · rfl
  · split
    · lift_lets
      intros
      refine foldl_preserve (fun s2 : Screen => s2.Buffer y c = screen.Buffer y c)
        (fun s2 a hs2 => ?_) _ rfl
      exact (renderSpriteColumn_other_col hz _ _ _ _ _ _ _ s2 a y).trans hs2
    · rfl

/-- C1 (amended): a sprite whose forward distance is at least the recorded
wall depth at a screen column plus the `0.1` depth tolerance produces no
glyph writes in that column: `renderSprite` leaves every cell of the column
unchanged.  (The unamended claim, with only a strict depth inequality,
fails inside the tolerance band — see the counterexample.) -/
theorem spec_C1 (r : Renderer) (spr : Sprite) (player : Player) (screen : Screen)
    (c : ℤ) (hz : r.zBuffer c + 0.1 ≤ spr.transformedY) :
    ∀ y : ℤ, (renderSprite r spr player screen).Buffer y c = screen.Buffer y c :=
  fun y => renderSprite_other_col hz player screen y

/-- Witness for C1: a fireball well behind the wall depth recorded for its
own screen column writes nothing at the center cell of that column. -/
theorem spec_C1_witness :
    (renderSprite ⟨4, 6, fun _ => 5⟩ ⟨⟨0, 0⟩, 0, 7.5, "fireball"⟩
        ⟨⟨0, 0⟩, ⟨1, 0⟩, ⟨0, 1⟩, 5.0, 3.0⟩ (NewScreen 4 6)).Buffer 2 2 =
      (NewScreen 4 6).Buffer 2 2 :=
  spec_C1 ⟨4, 6, fun _ => 5⟩ ⟨⟨0, 0⟩, 0, 7.5, "fireball"⟩
    ⟨⟨0, 0⟩, ⟨1, 0⟩, ⟨0, 1⟩, 5.0, 3.0⟩ (NewScreen 4 6) 2 (by norm_num) 2

/-- Counterexample to C1 as stated: a fireball at forward distance `5.05`,
strictly behind the recorded wall depth `5` of its screen column, still
draws there because the z-test admits the `0.1` tolerance band. -/
theorem spec_C1_counterexample :
    (⟨4, 6, fun _ => 5⟩ : Renderer).zBuffer 2 <
      (⟨⟨0, 0⟩, 0, 5.05, "fireball"⟩ : Sprite).transformedY ∧
    (renderSprite ⟨4, 6, fun _ => 5⟩ ⟨⟨0, 0⟩, 0, 5.05, "fireball"⟩
        ⟨⟨0, 0⟩, ⟨1, 0⟩, ⟨0, 1⟩, 5.0, 3.0⟩ (NewScreen 4 6)).Buffer 2 2 ≠
      (NewScreen 4 6).Buffer 2 2 := by
  have hs1 : Rat.sqrt (1 : ℚ) = 1 := by
    rw [show (1 : ℚ) = 1 * 1 by norm_num, Rat.sqrt_eq]
    norm_num
  have hs0 : Rat.sqrt (0 : ℚ) = 0 := by
    rw [show (0 : ℚ) = 0 * 0 by norm_num, Rat.sqrt_eq]
    norm_num
  have g2 : goTrunc (2 : ℚ) = 2 := by norm_num [goTrunc]
  have g40 : goTrunc ((40 : ℚ) / 101) = 0 := by
    norm_num [goTrunc]
    decide
  have g255 : goTrunc (255 : ℚ) = 255 := by norm_num [goTrunc]
  have g180 : goTrunc (180 : ℚ) = 180 := by norm_num [goTrunc]
  have g00 : goTrunc (0 : ℚ) = 0 := by norm_num [goTrunc]
  have t42 : (4 : ℤ).tdiv 2 = 2 := by decide
  have t12 : (1 : ℤ).tdiv 2 = 0 := by decide
  have t13 : (1 : ℤ).tdiv 3 = 0 := by decide
  have tn12 : (-1 : ℤ).tdiv 2 = 0 := by decide
  have t02 : (0 : ℤ).tdiv 2 = 0 := by decide
  have t34 : (3 : ℤ).tdiv 4 = 0 := by decide
  have hstr : ¬("fireball" = "player") := by decide
  constructor
  · norm_num
  · norm_num [renderSprite, renderSpriteColumn, NewScreen, Screen.SetCell, intRange, u8,
      defaultCell, hs1, hs0, g2, g40, g255, g180, g00, t42, t12, t13, tn12, t02, t34, hstr,
      min_def, List.range_succ]

/-- Default sprite used to phrase positional key lookups in the sort
proofs. -/
def spriteDefault : Sprite := ⟨⟨0, 0⟩, 0, 0, ""⟩

/-- Sort key (forward distance) of the sprite at position `m`. -/
def keyAt (l : List Sprite) (m : ℕ) : ℚ := (l.getD m spriteDefault).transformedY

lemma keyAt_congr {l l' : List Sprite} {m : ℕ} (h : l.get? m = l'.get? m) :
    keyAt l m = keyAt l' m := by
  rw [List.get?_eq_getElem?, List.get?_eq_getElem?] at h
  rw [keyAt, keyAt, List.getD_eq_getElem?_getD, List.getD_eq_getElem?_getD, h]

lemma getD_set_ne (l : List Sprite) (i j : ℕ) (a : Sprite) (h : i ≠ j) :
    (l.set i a).getD j spriteDefault = l.getD j spriteDefault := by
  simp [List.getD_eq_getElem?_getD, List.getElem?_set_ne h]

lemma getD_set_self (l : List Sprite) (i : ℕ) (a : Sprite) (h : i < l.length) :
    (l.set i a).getD i spriteDefault = a := by
  simp [List.getD_eq_getElem?_getD, List.getElem?_set_self h]

/-- In-bounds characterization of one comparison/swap of the sprite sort. -/
lemma sortStep_eq {l : List Sprite} {i j : ℕ} (hi : i < l.length) (hj : j < l.length) :
    sortStep l i j =
      if keyAt l i < keyAt l j
      then (l.set i (l.getD j spriteDefault)).set j (l.getD i spriteDefault)
      else l := by
  have h1 : l.get? i = some (l.getD i spriteDefault) := by
    simp [List.getD_eq_getElem?_getD, List.getElem?_eq_getElem hi]
  have h2 : l.get? j = some (l.getD j spriteDefault) := by
    simp [List.getD_eq_getElem?_getD, List.getElem?_eq_getElem hj]
  rw [sortStep, listSwap, h1, h2]
  rfl

lemma sortStep_length (l : List Sprite) (i j : ℕ) : (sortStep l i j).length = l.length := by
  rw [sortStep]
  cases h1 : l.get? i with
  | none => rfl
  | some si =>
    cases h2 : l.get? j with
    | none => rfl
    | some sj =>
      dsimp only
      split
      · rw [listSwap, h1, h2]
        simp
      · rfl

lemma sortStep_get?_other {l : List Sprite} {i j m : ℕ} (hmi : m ≠ i) (hmj : m ≠ j) :
    (sortStep l i j).get? m = l.get? m := by
  rw [sortStep]
  cases h1 : l.get? i with
  | none => rfl
  | some si =>
    cases h2 : l.get? j with
    | none => rfl
    | some sj =>
      dsimp only
      split
      · rw [listSwap, h1, h2]
        simp [List.get?_eq_getElem?, List.getElem?_set_ne (Ne.symm hmj),
          List.getElem?_set_ne (Ne.symm hmi)]
      · rfl

lemma sortStep_key_i {l : List Sprite} {i j : ℕ} (hi : i < l.length) (hj : j < l.length)
    (hij : i ≠ j) : keyAt l i ≤ keyAt (sortStep l i j) i := by
  rw [sortStep_eq hi hj]
  split
  · rename_i hlt
    simp only [keyAt]
    rw [getD_set_ne _ _ _ _ (Ne.symm hij),
      getD_set_self _ _ _ hi]
    exact le_of_lt hlt
  · exact le_refl _

lemma sortStep_key_ij {l : List Sprite} {i j : ℕ} (hi : i < l.length) (hj : j < l.length)
    (hij : i ≠ j) : keyAt (sortStep l i j) j ≤ keyAt (sortStep l i j) i := by
  rw [sortStep_eq hi hj]
  split
  · rename_i hlt
    simp only [keyAt]
    rw [getD_set_ne _ _ _ _ (Ne.symm hij), getD_set_self _ _ _ hi,
      getD_set_self _ _ _ (by simpa using hj)]
    exact le_of_lt hlt
  · rename_i hge
    exact not_lt.mp hge

lemma sortStep_getD_mem {l : List Sprite} {i j m : ℕ} (hi : i < l.length)
    (hj : j < l.length) (hm : m < l.length) :
    (sortStep l i j).getD m spriteDefault = l.getD i spriteDefault ∨
    (sortStep l i j).getD m spriteDefault = l.getD j spriteDefault ∨
    (sortStep l i j).getD m spriteDefault = l.getD m spriteDefault := by
  rw [sortStep_eq hi hj]
  split
  · by_cases hmj : m = j
    · subst hmj
      left
      rw [getD_set_self _ _ _ (by simpa using hj)]
    · by_cases hmi : m = i
      · subst hmi
        right
        left
        rw [getD_set_ne _ _ _ _ (Ne.symm hmj), getD_set_self _ _ _ (by simpa using hi)]
      · right
        right
        rw [getD_set_ne _ _ _ _ (Ne.symm hmj), getD_set_ne _ _ _ _ (Ne.symm hmi)]
  · right
    right
    rfl

/-- Effect of one full inner pass of the exchange sort at pivot `i` over an
index list `js` of positions strictly right of `i`: length is preserved,
untouched positions keep their entries, the pivot key only grows, keys
already dominated by the pivot stay dominated, every visited position ends
dominated by the pivot, and every position from `i` on holds some entry
that was at or right of `i` before. -/
lemma innerFold_spec :
    ∀ (js : List ℕ) (l : List Sprite) (i : ℕ), i < l.length →
      (∀ j ∈ js, i < j ∧ j < l.length) →
      ((js.foldl (fun acc j => sortStep acc i j) l).length = l.length) ∧
      (∀ m, m ≠ i → m ∉ js →
        (js.foldl (fun acc j => sortStep acc i j) l).get? m = l.get? m) ∧
      (keyAt l i ≤ keyAt (js.foldl (fun acc j => sortStep acc i j) l) i) ∧
      (∀ m, i < m → m < l.length → keyAt l m ≤ keyAt l i →
        keyAt (js.foldl (fun acc j => sortStep acc i j) l) m ≤
          keyAt (js.foldl (fun acc j => sortStep acc i j) l) i) ∧
      (∀ j ∈ js, keyAt (js.foldl (fun acc j => sortStep acc i j) l) j ≤
        keyAt (js.foldl (fun acc j => sortStep acc i j) l) i) ∧
      (∀ m, i ≤ m → m < l.length → ∃ m', i ≤ m' ∧ m' < l.length ∧
        (js.foldl (fun acc j => sortStep acc i j) l).getD m spriteDefault =
          l.getD m' spriteDefault)
  | [], l, i, hi, hjs =>
    ⟨rfl, fun _ _ _ => rfl, le_refl _, fun _ _ _ h => h, by simp,
      fun m hm hml => ⟨m, hm, hml, rfl⟩⟩
  | j :: rest, l, i, hi, hjs => by
    obtain ⟨hij, hjl⟩ := hjs j (List.mem_cons_self j rest)
    have hijne : i ≠ j := Nat.ne_of_lt hij
    have slen := sortStep_length l i j
    have hrest : ∀ x ∈ rest, i < x ∧ x < (sortStep l i j).length := by
      intro x hx
      rw [slen]
      exact hjs x (List.mem_cons_of_mem j hx)
    have hi' : i < (sortStep l i j).length := by
      rw [slen]
      exact hi
    have ih := innerFold_spec rest (sortStep l i j) i hi' hrest
    have skey_i := sortStep_key_i hi hjl hijne
    have skey_ij := sortStep_key_ij hi hjl hijne
    rw [List.foldl_cons]
    have hdomj : keyAt (rest.foldl (fun acc j => sortStep acc i j) (sortStep l i j)) j ≤
        keyAt (rest.foldl (fun acc j => sortStep acc i j) (sortStep l i j)) i := by
      refine ih.2.2.2.1 j hij ?_ skey_ij
      rw [slen]
      exact hjl
    refine ⟨?_, ?_, ?_, ?_, ?_, ?_⟩
    · rw [ih.1, slen]
    · intro m hmi hm
      have hmj : m ≠ j := fun hc => hm (hc ▸ List.mem_cons_self j rest)
      have hmrest : m ∉ rest := fun hc => hm (List.mem_cons_of_mem j hc)
      rw [ih.2.1 m hmi hmrest, sortStep_get?_other hmi hmj]
    · exact le_trans skey_i ih.2.2.1
    · intro m him hml hkey
      by_cases hmj : m = j
      · subst hmj
        exact hdomj
      · have hmi : m ≠ i := Nat.ne_of_gt him
        have h1 : keyAt (sortStep l i j) m = keyAt l m :=
          keyAt_congr (sortStep_get?_other hmi hmj)
        refine ih.2.2.2.1 m him ?_ ?_
        · rw [slen]
          exact hml
        · rw [h1]
          exact le_trans hkey skey_i
    · intro j' hj'
      rcases List.mem_cons.mp hj' with rfl | hj'rest
      · exact hdomj
      · exact ih.2.2.2.2.1 j' hj'rest
    · intro m him hml
      have hml' : m < (sortStep l i j).length := by
        rw [slen]
        exact hml
      obtain ⟨m2, hm21, hm22, hm23⟩ := ih.2.2.2.2.2 m him hml'
      have hm22' : m2 < l.length := by
        rw [slen] at hm22
        exact hm22
      rcases sortStep_getD_mem hi hjl hm22' with h | h | h
      · exact ⟨i, le_refl i, hi, by rw [hm23, h]⟩
      · exact ⟨j, le_of_lt hij, hjl, by rw [hm23, h]⟩
      · exact ⟨m2, hm21, hm22', by rw [hm23, h]⟩

lemma natRange_eq_nil {a b : ℕ} (h : b ≤ a) : natRange a b = [] := by
  simp [natRange, Nat.sub_eq_zero_of_le h]

lemma natRange_cons {a b : ℕ} (h : a < b) : natRange a b = a :: natRange (a + 1) b := by
  rw [natRange, natRange]
  have h1 : b - a = (b - (a + 1)) + 1 := by omega
  rw [h1, List.range_succ_eq_map, List.map_cons, List.map_map]
  refine congrArg₂ _ (by omega) (List.map_congr_left fun x _ => ?_)
  show a + (x + 1) = a + 1 + x
  omega

lemma natRange_mem {a b j : ℕ} : j ∈ natRange a b ↔ a ≤ j ∧ j < b := by
  simp only [natRange, List.mem_map, List.mem_range]
  constructor
  · rintro ⟨x, hx, rfl⟩
    omega
  · intro ⟨h1, h2⟩
    exact ⟨j - a, by omega, by omega⟩

/-- The first `k` positions dominate everything to their right. -/
def frontSorted (k : ℕ) (l : List Sprite) : Prop :=
  ∀ p q : ℕ, p < k → p < q → q < l.length → keyAt l q ≤ keyAt l p

/-- Outer induction for the exchange sort: each pass extends the sorted,
suffix-dominating prefix by one position. -/
lemma outerFold_spec (N : ℕ) :
    ∀ (fuel a : ℕ) (acc : List Sprite), acc.length = N → N - 1 - a ≤ fuel →
      frontSorted a acc →
      (((natRange a (N - 1)).foldl
          (fun acc i => (natRange (i + 1) N).foldl (fun acc2 j => sortStep acc2 i j) acc)
          acc).length = N ∧
        frontSorted N ((natRange a (N - 1)).foldl
          (fun acc i => (natRange (i + 1) N).foldl (fun acc2 j => sortStep acc2 i j) acc)
          acc))
  | fuel, a, acc, hlen, hfuel, hsorted => by
    by_cases hend : N - 1 ≤ a
    · rw [natRange_eq_nil hend]
      simp only [List.foldl_nil]
      refine ⟨hlen, fun p q hp hpq hq => ?_⟩
      rw [hlen] at hq
      by_cases hpa : p < a
      · exact hsorted p q hpa hpq (by rw [hlen]; exact hq)
      · omega
    · push_neg at hend
      match fuel with
      | 0 => omega
      | fuel + 1 =>
        rw [natRange_cons hend, List.foldl_cons]
        have hjs : ∀ j ∈ natRange (a + 1) N, a < j ∧ j < acc.length := by
          intro j hj
          rw [natRange_mem] at hj
          omega
        have ha : a < acc.length := by omega
        have inner := innerFold_spec (natRange (a + 1) N) acc a ha hjs
        set acc' := (natRange (a + 1) N).foldl (fun acc2 j => sortStep acc2 a j) acc with hacc'
        have hlen' : acc'.length = N := by rw [inner.1, hlen]
        have hsorted' : frontSorted (a + 1) acc' := by
          intro p q hp hpq hq
          rw [hlen'] at hq
          by_cases hpa : p = a
          · subst hpa
            refine inner.2.2.2.2.1 q ?_
            rw [natRange_mem]
            omega
          · have hpa' : p < a := by omega
            have hkp : keyAt acc' p = keyAt acc p := by
              refine keyAt_congr (inner.2.1 p (by omega) ?_)
              intro hc
              rw [natRange_mem] at hc
              omega
            by_cases hqa : q < a
            · have hkq : keyAt acc' q = keyAt acc q := by
                refine keyAt_congr (inner.2.1 q (by omega) ?_)
                intro hc
                rw [natRange_mem] at hc
                omega
              rw [hkp, hkq]
              exact hsorted p q hpa' hpq (by omega)
            · push_neg at hqa
              obtain ⟨m', hm'1, hm'2, hm'3⟩ := inner.2.2.2.2.2 q hqa (by omega)
              have hkq : keyAt acc' q = keyAt acc m' := by
                rw [keyAt, keyAt, hm'3]
              rw [hkp, hkq]
              exact hsorted p m' hpa' (by omega) (by omega)
        exact outerFold_spec N fuel (a + 1) acc' hlen' (by omega) hsorted'

/-- The sprite exchange sort always yields a farthest-to-nearest
(non-increasing forward distance) list. -/
lemma sortSprites_sorted (l : List Sprite) :
    List.Pairwise (fun a b => b.transformedY ≤ a.transformedY) (sortSprites l) := by
  have h := outerFold_spec l.length (l.length - 1) 0 l rfl (by omega)
    (fun p q hp _ _ => absurd hp (Nat.not_lt_zero p))
  rw [sortSprites]
  set F := (natRange 0 (l.length - 1)).foldl
    (fun acc i => (natRange (i + 1) l.length).foldl (fun acc2 j => sortStep acc2 i j) acc) l
  rw [List.pairwise_iff_get]
  intro i j hij
  have hi : (i : ℕ) < l.length := by
    have h1 := i.isLt
    have h2 := h.1
    omega
  have hj : (j : ℕ) < l.length := by
    have h1 := j.isLt
    have h2 := h.1
    omega
  have hkey := h.2 i j (by omega) hij (by have h2 := h.1; omega)
  have e1 : keyAt F i = (F.get i).transformedY := by
    rw [keyAt, List.getD_eq_getElem?_getD, List.getElem?_eq_getElem i.isLt]
    rfl
  have e2 : keyAt F j = (F.get j).transformedY := by
    rw [keyAt, List.getD_eq_getElem?_getD, List.getElem?_eq_getElem j.isLt]
    rfl
  rw [e1, e2] at hkey
  exact hkey

/-- C2 (amended): the sprite sort always orders by non-increasing forward
distance, and with three visible actors at forward distances 10, 5 and 2
sharing a screen column the nearest actor's color (the green `@` of the
distance-2 player) is the one finally written.  (The sort is however not
stable on ties — see the counterexample.) -/
theorem spec_C2 :
    (∀ l : List Sprite,
      List.Pairwise (fun a b => b.transformedY ≤ a.transformedY) (sortSprites l)) ∧
    (renderAllSprites ⟨4, 6, fun _ => 100⟩ ⟨⟨0, 0⟩, ⟨1, 0⟩, ⟨0, 1⟩, 5.0, 3.0⟩
        (NewScreen 4 6)
        [⟨⟨10, 0⟩, ⟨1, 0⟩, 8.0, 3.0, 3.0, true, Fireball⟩,
         ⟨⟨5, 0⟩, ⟨1, 0⟩, 8.0, 3.0, 3.0, true, Fireball⟩]
        [⟨⟨2, 0⟩, ⟨1, 0⟩, ⟨0, 1⟩, 5.0, 3.0⟩]).Buffer 2 2 =
      ⟨'@', ⟨0, 255, 0, 255⟩, ⟨0, 255, 0, 255⟩⟩ := by
  refine ⟨sortSprites_sorted, ?_⟩
  have hs1 : Rat.sqrt (1 : ℚ) = 1 := by
    rw [show (1 : ℚ) = 1 * 1 by norm_num, Rat.sqrt_eq]
    norm_num
  have hs0 : Rat.sqrt (0 : ℚ) = 0 := by
    rw [show (0 : ℚ) = 0 * 0 by norm_num, Rat.sqrt_eq]
    norm_num
  have hsq : Rat.sqrt ((1 : ℚ) / 4) = 1 / 2 := by
    rw [show ((1 : ℚ) / 4) = (1 / 2) * (1 / 2) by norm_num, Rat.sqrt_eq]
    norm_num
  have g2 : goTrunc (2 : ℚ) = 2 := by norm_num [goTrunc]
  have g15 : goTrunc ((1 : ℚ) / 5) = 0 := by
    norm_num [goTrunc]
    decide
  have g25 : goTrunc ((2 : ℚ) / 5) = 0 := by
    norm_num [goTrunc]
    decide
  have g29 : goTrunc ((29 : ℚ) / 10) = 2 := by
    norm_num [goTrunc]
    decide
  have g765 : goTrunc ((765 : ℚ) / 4) = 191 := by
    norm_num [goTrunc]
    decide
  have g255 : goTrunc (255 : ℚ) = 255 := by norm_num [goTrunc]
  have g180 : goTrunc (180 : ℚ) = 180 := by norm_num [goTrunc]
  have g00 : goTrunc (0 : ℚ) = 0 := by norm_num [goTrunc]
  have t42 : (4 : ℤ).tdiv 2 = 2 := by decide
  have t22 : (2 : ℤ).tdiv 2 = 1 := by decide
  have t12 : (1 : ℤ).tdiv 2 = 0 := by decide
  have t13 : (1 : ℤ).tdiv 3 = 0 := by decide
  have t64 : (6 : ℤ).tdiv 4 = 1 := by decide
  have tn12 : (-1 : ℤ).tdiv 2 = 0 := by decide
  have t02 : (0 : ℤ).tdiv 2 = 0 := by decide
  have hstr : ¬("fireball" = "player") := by decide
  have hstr2 : ¬("player" = "fireball") := by decide
  have htn3 : (3 : ℤ).toNat = 3 := rfl
  have htn1 : (1 : ℤ).toNat = 1 := rfl
  norm_num [renderAllSprites, collectSprites, sortSprites, natRange, sortStep, listSwap,
    renderSprite, renderSpriteColumn, intRange, Screen.SetCell, NewScreen, u8, defaultCell,
    Vector.Sub, hs0, hs1, hsq, g2, g15, g25, g29, g765, g255, g180, g00, t42, t22, t12,
    t13, t64, tn12, t02, hstr, hstr2, htn3, htn1, min_def, List.range_succ,
    List.filterMap_cons, List.flatMap_cons]

/-- Counterexample to C2 as stated: two sprites with equal forward distance
5 (one fireball, one player) followed by a farther sprite at distance 10 —
the exchange sort swaps the distance-10 sprite to the front past both,
reversing the relative order of the two equal-distance sprites. -/
theorem spec_C2_counterexample :
    sortSprites
        [⟨⟨0, 0⟩, 0, 5, "fireball"⟩, ⟨⟨1, 0⟩, 0, 5, "player"⟩,
         ⟨⟨2, 0⟩, 0, 10, "fireball"⟩] =
      [⟨⟨2, 0⟩, 0, 10, "fireball"⟩, ⟨⟨1, 0⟩, 0, 5, "player"⟩,
       ⟨⟨0, 0⟩, 0, 5, "fireball"⟩] ∧
    (⟨⟨0, 0⟩, 0, 5, "fireball"⟩ : Sprite) ≠ ⟨⟨1, 0⟩, 0, 5, "player"⟩ := by
  constructor
  · decide
  · decide

/-- C8: `SetCell` writes exactly the addressed cell and only when
`0 ≤ x < Width` and `0 ≤ y < GameHeight`, leaving the buffer untouched for
any other coordinate; `NewScreen` reserves the bottom two rows
(`GameHeight = Height − 2`); consequently a full `Render` never modifies
any row at or below `GameHeight`. -/
theorem spec_C8 :
    (∀ (s : Screen) (x y : ℤ) (c : Char) (fg bg : Color),
      (¬(0 ≤ x ∧ x < s.Width ∧ 0 ≤ y ∧ y < s.GameHeight) → s.SetCell x y c fg bg = s) ∧
      ((0 ≤ x ∧ x < s.Width ∧ 0 ≤ y ∧ y < s.GameHeight) →
        (s.SetCell x y c fg bg).Buffer y x = ⟨c, fg, bg⟩ ∧
        ∀ y' x' : ℤ, ¬(y' = y ∧ x' = x) →
          (s.SetCell x y c fg bg).Buffer y' x' = s.Buffer y' x')) ∧
    (∀ w h : ℤ, (NewScreen w h).GameHeight = h - 2) ∧
    (∀ (r : Renderer) (player : Player) (worldMap : Map) (screen : Screen)
      (lights : List LightSource) (projectiles : List Projectile)
      (otherPlayers : List Player) (y x : ℤ), screen.GameHeight ≤ y →
      (Render r player worldMap screen lights projectiles otherPlayers).2.Buffer y x =
        screen.Buffer y x) := by
  refine ⟨?_, fun w h => rfl, ?_⟩
  · intro s x y c fg bg
    constructor
    · intro hout
      rw [Screen.SetCell, if_neg hout]
    · intro hin
      rw [Screen.SetCell, if_pos hin]
      constructor
      · show (if y = y ∧ x = x then _ else _) = _
        rw [if_pos ⟨rfl, rfl⟩]
      · intro y' x' hne
        show (if y' = y ∧ x' = x then _ else s.Buffer y' x') = s.Buffer y' x'
        rw [if_neg hne]
  · intro r player worldMap screen lights projectiles otherPlayers y x hy
    exact (hudSafe_Render r player worldMap screen lights projectiles
      otherPlayers).2.2.2 y x hy

/-- Witness for C8: an out-of-bounds write is dropped, the HUD reserves two
rows, and a concrete render leaves an HUD cell untouched. -/
theorem spec_C8_witness :
    (Screen.SetCell (NewScreen 4 6) 10 1 '!' ⟨1, 2, 3, 255⟩ ⟨1, 2, 3, 255⟩ = NewScreen 4 6) ∧
    (NewScreen 4 6).GameHeight = 6 - 2 ∧
    (Render (NewRenderer 4 6) (NewPlayer 1.5 1.5) NewMap (NewScreen 4 6) [] []
        []).2.Buffer 5 0 = (NewScreen 4 6).Buffer 5 0 :=
  ⟨(spec_C8.1 (NewScreen 4 6) 10 1 '!' ⟨1, 2, 3, 255⟩ ⟨1, 2, 3, 255⟩).1
      (by simp [NewScreen]),
   spec_C8.2.1 4 6,
   spec_C8.2.2 (NewRenderer 4 6) (NewPlayer 1.5 1.5) NewMap (NewScreen 4 6) [] [] [] 5 0
     (by simp [NewScreen])⟩

/-- C5: `AddPlayer` fails with the capacity error exactly when the session
count has reached `MaxPlayers`, leaving the registry untouched; otherwise it
spawns a player on the randomly chosen passable cell with sub-cell jitter in
`[0.2, 0.8)` on each axis, registers the session under the given id, and
returns it. -/
theorem spec_C5 :
    (∀ (gs : GameServer) (sessionID : String) (rndIdx : ℕ) (rnd1 rnd2 : ℚ) (now : ℕ),
      mapLen gs.Players ≥ gs.MaxPlayers →
        AddPlayer gs sessionID rndIdx rnd1 rnd2 now = (gs, Except.error "server full")) ∧
    (∀ (gs : GameServer) (sessionID : String) (rndIdx : ℕ) (rnd1 rnd2 : ℚ) (now : ℕ),
      mapLen gs.Players < gs.MaxPlayers →
      rndIdx < (emptySpacesOf gs.SrvMap).length →
      0 ≤ rnd1 → rnd1 < 1 → 0 ≤ rnd2 → rnd2 < 1 →
      ∃ (s : PlayerSession) (cx cy : ℤ),
        AddPlayer gs sessionID rndIdx rnd1 rnd2 now =
          ({ gs with Players := mapInsert gs.Players sessionID s }, Except.ok s) ∧
        s.ID = sessionID ∧ s.Connected = true ∧
        mapLookup (mapInsert gs.Players sessionID s) sessionID = some s ∧
        (cx, cy) ∈ emptySpacesOf gs.SrvMap ∧
        gs.SrvMap.cellAt cx cy = 0 ∧
        s.Player = NewPlayer ((cx : ℚ) + 0.2 + rnd1 * 0.6) ((cy : ℚ) + 0.2 + rnd2 * 0.6) ∧
        (cx : ℚ) + 0.2 ≤ s.Player.Position.X ∧ s.Player.Position.X < (cx : ℚ) + 0.8 ∧
        (cy : ℚ) + 0.2 ≤ s.Player.Position.Y ∧ s.Player.Position.Y < (cy : ℚ) + 0.8) := by
  constructor
  · intro gs sessionID rndIdx rnd1 rnd2 now hfull
    rw [AddPlayer, if_pos hfull]
  · intro gs sessionID rndIdx rnd1 rnd2 now hroom hidx h10 h11 h20 h21
    have hne : (emptySpacesOf gs.SrvMap).length ≠ 0 := by omega
    have hchosen : (emptySpacesOf gs.SrvMap).getD rndIdx (0, 0) ∈ emptySpacesOf gs.SrvMap := by
      rw [List.getD_eq_getElem?_getD, List.getElem?_eq_getElem hidx]
      exact List.getElem_mem hidx
    set chosen := (emptySpacesOf gs.SrvMap).getD rndIdx (0, 0) with hch
    have hspawn : findRandomSpawnPoint gs.SrvMap rndIdx rnd1 rnd2 =
        ((chosen.1 : ℚ) + 0.2 + rnd1 * 0.6, (chosen.2 : ℚ) + 0.2 + rnd2 * 0.6) := by
      rw [findRandomSpawnPoint, if_neg hne]
    refine ⟨⟨sessionID,
      NewPlayer ((chosen.1 : ℚ) + 0.2 + rnd1 * 0.6) ((chosen.2 : ℚ) + 0.2 + rnd2 * 0.6),
      true, now⟩, chosen.1, chosen.2, ?_, rfl, rfl, mapLookup_insert _ _ _, hchosen,
      emptySpaces_mem hchosen, rfl, ?_, ?_, ?_, ?_⟩
    · rw [AddPlayer, if_neg (not_le.mpr hroom), hspawn]
    · show (chosen.1 : ℚ) + 0.2 ≤ (chosen.1 : ℚ) + 0.2 + rnd1 * 0.6
      nlinarith
    · show (chosen.1 : ℚ) + 0.2 + rnd1 * 0.6 < (chosen.1 : ℚ) + 0.8
      nlinarith
    · show (chosen.2 : ℚ) + 0.2 ≤ (chosen.2 : ℚ) + 0.2 + rnd2 * 0.6
      nlinarith
    · show (chosen.2 : ℚ) + 0.2 + rnd2 * 0.6 < (chosen.2 : ℚ) + 0.8
      nlinarith

/-- Witness for C5: a one-slot server over a 3×3 map with a single passable
cell rejects a join at capacity and accepts one below capacity. -/
theorem spec_C5_witness :
    (AddPlayer ⟨⟨3, 3, [[1, 1, 1], [1, 0, 1], [1, 1, 1]]⟩, ⟨[]⟩,
        [("a", ⟨"a", NewPlayer 1.5 1.5, true, 0⟩)], 1⟩ "b" 0 0.5 0.5 7 =
      (⟨⟨3, 3, [[1, 1, 1], [1, 0, 1], [1, 1, 1]]⟩, ⟨[]⟩,
        [("a", ⟨"a", NewPlayer 1.5 1.5, true, 0⟩)], 1⟩, Except.error "server full")) ∧
    ∃ (s : PlayerSession) (cx cy : ℤ),
      AddPlayer ⟨⟨3, 3, [[1, 1, 1], [1, 0, 1], [1, 1, 1]]⟩, ⟨[]⟩, [], 1⟩ "b" 0 0.5 0.5 7 =
        ({ SrvMap := ⟨3, 3, [[1, 1, 1], [1, 0, 1], [1, 1, 1]]⟩, ProjectileManager := ⟨[]⟩,
           Players := mapInsert [] "b" s, MaxPlayers := 1 }, Except.ok s) ∧
      s.ID = "b" ∧ s.Connected = true ∧
      mapLookup (mapInsert [] "b" s) "b" = some s ∧
      (cx, cy) ∈ emptySpacesOf ⟨3, 3, [[1, 1, 1], [1, 0, 1], [1, 1, 1]]⟩ ∧
      Map.cellAt ⟨3, 3, [[1, 1, 1], [1, 0, 1], [1, 1, 1]]⟩ cx cy = 0 ∧
      s.Player = NewPlayer ((cx : ℚ) + 0.2 + 0.5 * 0.6) ((cy : ℚ) + 0.2 + 0.5 * 0.6) ∧
      (cx : ℚ) + 0.2 ≤ s.Player.Position.X ∧ s.Player.Position.X < (cx : ℚ) + 0.8 ∧
      (cy : ℚ) + 0.2 ≤ s.Player.Position.Y ∧ s.Player.Position.Y < (cy : ℚ) + 0.8 :=
  ⟨spec_C5.1 _ "b" 0 0.5 0.5 7 (by simp [mapLen]),
   spec_C5.2 _ "b" 0 0.5 0.5 7 (by simp [mapLen]) (by decide)
     (by norm_num) (by norm_num) (by norm_num) (by norm_num)⟩

/-- C10: updating an inactive projectile is a no-op: position, direction,
speed, life, max life, active flag and type are all unchanged. -/
theorem spec_C10 (p : Projectile) (deltaTime : ℚ) (worldMap : Map)
    (h : p.Active = false) : p.Update deltaTime worldMap = p := by
  simp [Projectile.Update, h]

/-- Witness for C10 at a concrete inactive projectile. -/
theorem spec_C10_witness :
    Projectile.Update ⟨⟨1.5, 1.5⟩, ⟨1, 0⟩, 8.0, 1.0, 3.0, false, Fireball⟩ 0.25 NewMap =
      ⟨⟨1.5, 1.5⟩, ⟨1, 0⟩, 8.0, 1.0, 3.0, false, Fireball⟩ :=
  spec_C10 _ _ _ rfl

/-- C9: `Vector.Normalize` is total and never divides by zero: the zero
vector normalizes to itself, and any other vector has nonzero length and
normalizes to itself divided componentwise by its length. -/
theorem spec_C9 :
    Vector.Normalize ⟨0, 0⟩ = ⟨0, 0⟩ ∧
      ∀ v : Vector, v ≠ ⟨0, 0⟩ →
        v.Length ≠ 0 ∧ v.Normalize = ⟨v.X / v.Length, v.Y / v.Length⟩ := by
  constructor
  · simp [Vector.Normalize, Vector.Length, Rat.sqrt]
  · intro v hv
    have hpos : 0 < v.X * v.X + v.Y * v.Y := by
      rcases eq_or_ne v.X 0 with hx | hx
      · have hy : v.Y ≠ 0 := by
          intro hy
          exact hv (by cases v; simp_all)
        have := mul_self_nonneg v.X
        have := mul_pos (abs_pos.mpr hy) (abs_pos.mpr hy)
        nlinarith [abs_mul_abs_self v.Y]
      · have := mul_self_nonneg v.Y
        nlinarith [mul_pos (abs_pos.mpr hx) (abs_pos.mpr hx), abs_mul_abs_self v.X]
    have hlen : 0 < v.Length := ratSqrt_pos hpos
    refine ⟨ne_of_gt hlen, ?_⟩
    simp [Vector.Normalize, (ne_of_gt hlen : v.Length ≠ 0).symm, ne_of_gt hlen]

/-- Witness for C9's universally quantified part at a concrete vector. -/
theorem spec_C9_witness :
    Vector.Length ⟨3, 4⟩ ≠ 0 ∧
      Vector.Normalize ⟨3, 4⟩ =
        ⟨3 / Vector.Length ⟨3, 4⟩, 4 / Vector.Length ⟨3, 4⟩⟩ :=
  spec_C9.2 ⟨3, 4⟩ (by simp)

/-- C6: for an active fireball with `0 < Life ≤ MaxLife` the light radius is
`2.0 + 1.5·(Life/MaxLife)` (hence in `(2.0, 3.5]`) and the light intensity
is `0.8·(Life/MaxLife)` (hence in `(0, 0.8]`); a light source contributes
`intensity·(1 − d/radius)²` at distance `d ≤ radius` and `0` beyond. -/
theorem spec_C6 :
    (∀ p : Projectile, p.Active = true → p.Type' = Fireball →
      0 < p.Life → p.Life ≤ p.MaxLife →
      p.GetLightRadius = 2.0 + 1.5 * (p.Life / p.MaxLife) ∧
      p.GetLightIntensity = 0.8 * (p.Life / p.MaxLife) ∧
      2.0 < p.GetLightRadius ∧ p.GetLightRadius ≤ 3.5 ∧
      0 < p.GetLightIntensity ∧ p.GetLightIntensity ≤ 0.8) ∧
    (∀ (ls : LightSource) (pos : Vector),
      ls.GetLightingAt pos =
        if (pos.Sub ls.Position).Length ≤ ls.Radius then
          ls.Intensity * (1 - (pos.Sub ls.Position).Length / ls.Radius) ^ 2
        else 0) := by
  constructor
  · intro p hA hT hL hLM
    have hM : 0 < p.MaxLife := lt_of_lt_of_le hL hLM
    have hRadius : p.GetLightRadius = 2.0 + 1.5 * (p.Life / p.MaxLife) := by
      simp [Projectile.GetLightRadius, hA, hT]
    have hIntensity : p.GetLightIntensity = 0.8 * (p.Life / p.MaxLife) := by
      simp [Projectile.GetLightIntensity, hA, hT]
    have hratio0 : 0 < p.Life / p.MaxLife := div_pos hL hM
    have hratio1 : p.Life / p.MaxLife ≤ 1 := (div_le_one hM).mpr hLM
    refine ⟨hRadius, hIntensity, ?_, ?_, ?_, ?_⟩
    · rw [hRadius]; nlinarith
    · rw [hRadius]; nlinarith
    · rw [hIntensity]; nlinarith
    · rw [hIntensity]; nlinarith
  · intro ls pos
    rw [LightSource.GetLightingAt]
    rcases le_or_lt (pos.Sub ls.Position).Length ls.Radius with h | h
    · rw [if_neg (by simpa using not_lt.mpr h), if_pos h]
      ring
    · rw [if_pos h, if_neg (by simpa using h.not_le)]

/-- Witness for C6 at a concrete fresh fireball and a concrete light query. -/
theorem spec_C6_witness :
    (Projectile.GetLightRadius ⟨⟨1.5, 1.5⟩, ⟨1, 0⟩, 8.0, 3.0, 3.0, true, Fireball⟩ =
        2.0 + 1.5 * (3.0 / 3.0) ∧
      Projectile.GetLightIntensity ⟨⟨1.5, 1.5⟩, ⟨1, 0⟩, 8.0, 3.0, 3.0, true, Fireball⟩ =
        0.8 * (3.0 / 3.0) ∧
      2.0 < Projectile.GetLightRadius ⟨⟨1.5, 1.5⟩, ⟨1, 0⟩, 8.0, 3.0, 3.0, true, Fireball⟩ ∧
      Projectile.GetLightRadius ⟨⟨1.5, 1.5⟩, ⟨1, 0⟩, 8.0, 3.0, 3.0, true, Fireball⟩ ≤ 3.5 ∧
      0 < Projectile.GetLightIntensity ⟨⟨1.5, 1.5⟩, ⟨1, 0⟩, 8.0, 3.0, 3.0, true, Fireball⟩ ∧
      Projectile.GetLightIntensity ⟨⟨1.5, 1.5⟩, ⟨1, 0⟩, 8.0, 3.0, 3.0, true, Fireball⟩ ≤ 0.8) ∧
    LightSource.GetLightingAt ⟨⟨0, 0⟩, 2.0, 0.8, (1.0, 0.6, 0.2)⟩ ⟨1, 0⟩ =
      if (Vector.Sub ⟨1, 0⟩ ⟨0, 0⟩).Length ≤ 2.0 then
        0.8 * (1 - (Vector.Sub ⟨1, 0⟩ ⟨0, 0⟩).Length / 2.0) ^ 2
      else 0 :=
  ⟨spec_C6.1 _ rfl rfl (by norm_num) (by norm_num), spec_C6.2 _ _⟩

/-- C7: a wandering agent with direction `(1, 0)` and an unexpired movement
timer that attempts to cross into a wall cell on the X axis keeps its X
position, flips `Direction.X` to `-1`, and has its timer forced to exactly
`0.5` — provided it sits in the clamped interior band `[0.2, dim − 0.2]` so
the edge-reflection and clamping steps do not interfere. -/
theorem spec_C7 (npc : NPC) (dt : ℚ) (m : Map) (rndDir : Vector) (rndTimer : ℚ)
    (hTimer : 0 < npc.MovementTimer - dt)
    (hDir : npc.Direction = ⟨1, 0⟩)
    (hWallX : m.IsWall (goTrunc (npc.Position.X + npc.Speed * dt)) (goTrunc npc.Position.Y) = true)
    (hX1 : 0.2 ≤ npc.Position.X) (hX2 : npc.Position.X ≤ (m.Width : ℚ) - 0.2)
    (hY1 : 0.2 ≤ npc.Position.Y) (hY2 : npc.Position.Y ≤ (m.Height : ℚ) - 0.2) :
    (npc.Update dt m rndDir rndTimer).Position.X = npc.Position.X ∧
    (npc.Update dt m rndDir rndTimer).Direction.X = -1 ∧
    (npc.Update dt m rndDir rndTimer).MovementTimer = 0.5 := by
  have hTimer' : ¬(npc.MovementTimer - dt ≤ 0) := by linarith
  have hWallX' :
      m.IsWall (goTrunc (npc.Position.X + 1 * (npc.Speed * dt))) (goTrunc npc.Position.Y)
        = true := by
    rwa [one_mul]
  have hY0 : npc.Position.Y + 0 * (npc.Speed * dt) = npc.Position.Y := by ring
  have hEdgeX : ¬(npc.Position.X < 0.2 ∨ npc.Position.X > (m.Width : ℚ) - 0.2) := by
    push_neg
    exact ⟨hX1, hX2⟩
  have hEdgeY : ¬(npc.Position.Y < 0.2 ∨ npc.Position.Y > (m.Height : ℚ) - 0.2) := by
    push_neg
    exact ⟨hY1, hY2⟩
  have hClampX : max 0.2 (min ((m.Width : ℚ) - 0.2) npc.Position.X) = npc.Position.X := by
    rw [min_eq_right hX2, max_eq_right hX1]
  have hClampY : max 0.2 (min ((m.Height : ℚ) - 0.2) npc.Position.Y) = npc.Position.Y := by
    rw [min_eq_right hY2, max_eq_right hY1]
  by_cases hw : m.IsWall (goTrunc npc.Position.X) (goTrunc npc.Position.Y) = true
  · simp [NPC.Update, hDir, hTimer', hWallX, hWallX', hY0, hw, hEdgeX, hEdgeY, hClampX, hClampY,
      Vector.Add, Vector.Scale]
  · simp [NPC.Update, hDir, hTimer', hWallX, hWallX', hY0, hw, hEdgeX, hEdgeY, hClampX, hClampY,
      Vector.Add, Vector.Scale]

/-- Witness for C7: agent at `(2.5, 1.5)` on the default maze heading into
the wall cell `(3, 1)` of a 4-wide band; uses a concrete map where cell
`(3, 1)` is a wall. -/
theorem spec_C7_witness :
    (NPC.Update ⟨⟨2.5, 1.5⟩, ⟨1, 0⟩, 1.5, 1.0⟩ 0.5 ⟨5, 3,
        [[1, 1, 1, 1, 1], [1, 0, 0, 1, 1], [1, 1, 1, 1, 1]]⟩ ⟨0, 1⟩ 0.3).Position.X = 2.5 ∧
    (NPC.Update ⟨⟨2.5, 1.5⟩, ⟨1, 0⟩, 1.5, 1.0⟩ 0.5 ⟨5, 3,
        [[1, 1, 1, 1, 1], [1, 0, 0, 1, 1], [1, 1, 1, 1, 1]]⟩ ⟨0, 1⟩ 0.3).Direction.X = -1 ∧
    (NPC.Update ⟨⟨2.5, 1.5⟩, ⟨1, 0⟩, 1.5, 1.0⟩ 0.5 ⟨5, 3,
        [[1, 1, 1, 1, 1], [1, 0, 0, 1, 1], [1, 1, 1, 1, 1]]⟩ ⟨0, 1⟩ 0.3).MovementTimer = 0.5 :=
  spec_C7 _ _ _ _ _ (by norm_num) rfl
    (by norm_num [goTrunc, Map.IsWall, Map.cellAt]; decide)
    (by norm_num) (by norm_num) (by norm_num) (by norm_num)

end Terminus
